import Mathlib

/-!
# GoBinDragon / GoSourceToAst: the declaration-to-JSON translator

A shallow embedding of `src/GoSourceToAst/source-to-ast.go`.

* The `go/ast` nodes the translator inspects are inductive types (`Expr`, `Field`,
  `FuncType`, `Spec`, `Decl`).
* Every `fmt.Fprint*`/`fmt.Printf` call is one `Event`: the stream written to and the
  text written.  A call of a translator function yields an `Outcome`: the events it
  produced, and the abort (`log.Panicf`, `log.Fatalf`, a failed type assertion) that
  ended it, if any.
* The mutable `first...` flags captured by the `before...` closures are passed into
  and returned from the loops that use them.
-/

namespace GoBinDragon

/-! ## The input: the part of `go/token` and `go/ast` the translator reads -/

/-- The `token.Token` values the translator compares against, `INT` for the literal
`1`, and every other token by its name. -/
inductive Token where
  | IMPORT | TYPE | CONST | VAR | TILDE | OR | INT
  | other (name : String)
  deriving DecidableEq, Repr

mutual
/-- An `ast.Expr`.  The constructors are the node kinds `translateType` switches on;
`basicLit` is the only kind it accepts as an array length; `other` is any remaining
node kind (`*ast.Ellipsis`, `*ast.ChanType`, `*ast.IndexExpr`, ...), carried by the
name `reflect.TypeOf` prints for it. -/
inductive Expr where
  | ident (name : String)
  | selectorExpr (x : Expr) (sel : String)
  | starExpr (x : Expr)
  | funcType (t : FuncType)
  | mapType (key : Expr) (value : Expr)
  | arrayType (len : Option Expr) (elt : Expr)
  | structType (fields : List Field) (incomplete : Bool)
  | interfaceType (methods : List Field) (incomplete : Bool)
  | unaryExpr (op : Token) (x : Expr)
  | binaryExpr (x : Expr) (op : Token) (y : Expr)
  | basicLit (kind : Token) (value : String)
  | other (typeName : String)
/-- An `ast.Field`: the names of one field group and their common type. -/
inductive Field where
  | mk (names : List String) (type : Expr)
/-- An `ast.FuncType`.  `typeParams` and `results` may be nil; a field list is the
list of its groups (`FieldList.List`).  The field lists the parser always sets
(`Params`, a struct's `Fields`, an interface's `Methods`) are not optional. -/
inductive FuncType where
  | mk (typeParams : Option (List Field)) (params : List Field)
      (results : Option (List Field))
end

/-- The field `Names` of an `ast.Field`. -/
def Field.names : Field → List String
  | .mk ns _ => ns

/-- The field `Type` of an `ast.Field`. -/
def Field.type : Field → Expr
  | .mk _ t => t

/-- An `ast.Spec`. -/
inductive Spec where
  | importSpec (path : String)
  | typeSpec (name : String) (typeParams : Option (List Field)) (type : Expr)
  | valueSpec (names : List String) (type : Option Expr) (values : List Expr)

/-- An `ast.Decl`: a declaration group, a function declaration (its body is never
read), or any other declaration node, carried by the name `reflect.TypeOf` prints. -/
inductive Decl where
  | genDecl (tok : Token) (specs : List Spec)
  | funcDecl (recv : Option (List Field)) (name : String) (type : FuncType)
  | other (typeName : String)

/-! ## The output: streams, events, outcomes -/

/-- The streams a call can write to: the process's standard output and standard
error, and any other `io.Writer`. -/
inductive Stream where
  | stdout | stderr
  | writer (id : Nat)
  deriving DecidableEq, Repr

/-- One write: the stream and the text. -/
structure Event where
  stream : Stream
  text : String
  deriving DecidableEq, Repr

/-- The aborts of the translator, one per `log.Panicf`/`log.Fatalf` call and one per
type assertion. -/
inductive Err where
  | namelessField
  | namelessMethod
  | unsupportedUnaryOperator
  | unknownUnaryOperator
  | unsupportedBinaryOperator
  | unknownBinaryOperator
  | unknownType (typeName : String)
  | arrayLengthNotBasicLit
  | parameterWithoutName
  | unexpectedGenDecl (tok : Token)
  | unexpectedNumberOfReceivers (func : String)
  | specNotTypeSpec
  | specNotValueSpec
  deriving DecidableEq, Repr

/-- What a call did: the events it produced, in order, and the abort that ended it
(`none` when it returned normally). -/
structure Outcome where
  trace : List Event
  err : Option Err
  deriving DecidableEq, Repr

/-- Sequencing of statements: the second runs only when the first returned. -/
def Outcome.andThen (a b : Outcome) : Outcome :=
  match a.err with
  | some _ => a
  | none => ⟨a.trace ++ b.trace, b.err⟩

/-- The empty statement. -/
def skip : Outcome := ⟨[], none⟩

/-- The call `fmt.Fprint(w, s)` (and `fmt.Fprintf` once its format is expanded). -/
def fprint (w : Stream) (s : String) : Outcome := ⟨[⟨w, s⟩], none⟩

/-- The call `fmt.Printf`: it writes to the standard output. -/
def printf (s : String) : Outcome := fprint Stream.stdout s

/-- A `log.Panicf`, `log.Fatalf` or failed type assertion: the call ends here.  The
line the logger then writes to the standard error starts with the time of day and is
not recorded in the trace; the abort itself is. -/
def abort (e : Err) : Outcome := ⟨[], some e⟩

/-- The verb `%t`. -/
def fmtBool (b : Bool) : String := if b then "true" else "false"

/-- The closures `beforeField`, `beforeMethod`, `beforeParam`, `beforeResult` and
`beforeDeclaration`: `if !first { fmt.Fprintln(w, ",") }`; each then clears its flag,
which the caller does by continuing with `false`. -/
def beforeItem (w : Stream) (first : Bool) : Outcome :=
  if !first then fprint w ",\n" else skip

/-- Lines 36-40: the length of an array type, `null` when absent, else the `Value` of
the `*ast.BasicLit` it is asserted to be. -/
def translateArrayLen (w : Stream) : Option Expr → Outcome
  | none => fprint w "null,"
  | some (.basicLit _ value) => fprint w (value ++ ",")
  | some _ => abort .arrayLengthNotBasicLit

/-! ## The translator -/

mutual
/-- Lines 14-98, `translateType`. -/
def translateType (w : Stream) : Expr → Outcome
  | .ident name =>
    fprint w ("\x7b\"Case\":\"Ident\",\"Fields\":[\"" ++ name ++ "\"]\x7d")
  | .selectorExpr x sel =>
    (fprint w "\x7b\"Case\":\"Selector\",\"Fields\":[").andThen
      ((translateType w x).andThen
        (printf (",\"" ++ sel ++ "\"]\x7d")))
  | .starExpr x =>
    (fprint w "\x7b\"Case\":\"Star\",\"Fields\":[").andThen
      ((translateType w x).andThen
        (printf "]\x7d"))
  | .funcType t => translateFuncType w t
  | .mapType key value =>
    (fprint w "\x7b\"Case\":\"Map\",\"Fields\":[").andThen
      ((translateType w key).andThen
        ((fprint w ",").andThen
          ((translateType w value).andThen
            (printf "]\x7d"))))
  | .arrayType len elt =>
    (fprint w "\x7b\"Case\":\"Array\",\"Fields\":[").andThen
      ((translateArrayLen w len).andThen
        ((translateType w elt).andThen
          (printf "]\x7d")))
  | .structType fields incomplete =>
    (fprint w ("\x7b\"Case\":\"Struct\",\"Fields\":[" ++ fmtBool incomplete ++ ",[")).andThen
      ((structFields w fields true).1.andThen
        (printf "]]\x7d"))
  | .interfaceType methods incomplete =>
    (fprint w ("\x7b\"Case\":\"Interface\",\"Fields\":[" ++ fmtBool incomplete ++ ",[")).andThen
      ((interfaceMethods w methods true).1.andThen
        (printf "]]\x7d"))
  | .unaryExpr op _ =>
    if op = Token.TILDE then abort .unsupportedUnaryOperator
    else abort .unknownUnaryOperator
  | .binaryExpr _ op _ =>
    if op = Token.OR then abort .unsupportedBinaryOperator
    else abort .unknownBinaryOperator
  | .basicLit _ _ => abort (.unknownType "*ast.BasicLit")
  | .other typeName => abort (.unknownType typeName)
termination_by t => (sizeOf t, 0)
/-- Lines 100-145, `translateFuncType`. -/
def translateFuncType (w : Stream) : FuncType → Outcome
  | .mk typeParams params results =>
    (if typeParams.isSome then fprint Stream.stderr "Ignoring type parameters for function\n"
      else skip).andThen
      ((fprint w "\x7b\"Params\":[").andThen
        ((funcParams w params true).1.andThen
          ((fprint w "],\"Results\":[").andThen
            ((match results with
              | some rs => (funcResults w rs true).1
              | none => skip).andThen
              (fprint w "]\x7d")))))
termination_by t => (sizeOf t, 0)
/-- Lines 147-151, `translateField`. -/
def translateField (w : Stream) (name : String) (t : Expr) : Outcome :=
  (fprint w ("\x7b\"Name\":\"" ++ name ++ "\",\"Type\":")).andThen
    ((translateType w t).andThen
      (fprint w "\x7d"))
termination_by (sizeOf t, 1)
/-- Lines 153-157, `translateFieldWithoutName`. -/
def translateFieldWithoutName (w : Stream) (t : Expr) : Outcome :=
  (fprint w "\x7b\"Type\":").andThen
    ((translateType w t).andThen
      (fprint w "\x7d"))
termination_by (sizeOf t, 1)
/-- The loop `for _, name := range field.Names { before(); translateField(w, name.Name,
field.Type) }` of lines 57-60, 77-80, 117-120 and 137-140, entered with the flag
`first`; it returns the flag it leaves. -/
def translateNames (w : Stream) (names : List String) (t : Expr) (first : Bool) :
    Outcome × Bool :=
  match names with
  | [] => (skip, first)
  | name :: rest =>
    (((beforeItem w first).andThen (translateField w name t)).andThen
        (translateNames w rest t false).1,
      (translateNames w rest t false).2)
termination_by (sizeOf t, 2 + names.length)
/-- Lines 53-61: the loop over the field groups of a struct. -/
def structFields (w : Stream) (fields : List Field) (first : Bool) : Outcome × Bool :=
  match fields with
  | [] => (skip, first)
  | .mk names t :: rest =>
    if names.length = 0 then (abort .namelessField, first)
    else
      ((translateNames w names t first).1.andThen
          (structFields w rest (translateNames w names t first).2).1,
        (structFields w rest (translateNames w names t first).2).2)
termination_by (sizeOf fields, 0)
/-- Lines 73-81: the loop over the method groups of an interface. -/
def interfaceMethods (w : Stream) (methods : List Field) (first : Bool) : Outcome × Bool :=
  match methods with
  | [] => (skip, first)
  | .mk names t :: rest =>
    if names.length = 0 then (abort .namelessMethod, first)
    else
      ((translateNames w names t first).1.andThen
          (interfaceMethods w rest (translateNames w names t first).2).1,
        (interfaceMethods w rest (translateNames w names t first).2).2)
termination_by (sizeOf methods, 0)
/-- Lines 113-121: the loop over the parameter groups. -/
def funcParams (w : Stream) (params : List Field) (first : Bool) : Outcome × Bool :=
  match params with
  | [] => (skip, first)
  | .mk names t :: rest =>
    if names.length = 0 then (abort .parameterWithoutName, first)
    else
      ((translateNames w names t first).1.andThen
          (funcParams w rest (translateNames w names t first).2).1,
        (funcParams w rest (translateNames w names t first).2).2)
termination_by (sizeOf params, 0)
/-- Lines 132-142: the loop over the result groups. -/
def funcResults (w : Stream) (results : List Field) (first : Bool) : Outcome × Bool :=
  match results with
  | [] => (skip, first)
  | .mk names t :: rest =>
    if names.length = 0 then
      (((beforeItem w first).andThen (translateFieldWithoutName w t)).andThen
          (funcResults w rest false).1,
        (funcResults w rest false).2)
    else
      ((translateNames w names t first).1.andThen
          (funcResults w rest (translateNames w names t first).2).1,
        (funcResults w rest (translateNames w names t first).2).2)
termination_by (sizeOf results, 0)
end

/-- Lines 178-187: the loop over the specs of a `type` group. -/
def typeSpecs (w : Stream) : List Spec → Bool → Outcome × Bool
  | [], first => (skip, first)
  | spec :: rest, first =>
    ((beforeItem w first).andThen
        ((match spec with
          | .typeSpec name typeParams type =>
            (fprint w ("\x7b\"Case\":\"Type\",\"Fields\":[\"" ++ name ++ "\",")).andThen
              ((if typeParams.isSome then
                  fprint Stream.stderr ("Ignoring type parameters for type " ++ name ++ "\n")
                else skip).andThen
                ((translateType w type).andThen
                  (fprint w "]\x7d")))
          | _ => abort .specNotTypeSpec).andThen
          (typeSpecs w rest false).1),
      (typeSpecs w rest false).2)

/-- Lines 192-194 and 200-202: one `Fprintf` per name of a value spec; `case` is
`Const` or `Var`. -/
def valueNames (w : Stream) (case : String) : List String → Outcome
  | [] => skip
  | name :: rest =>
    (fprint w ("\x7b\"Case\":\"" ++ case ++ "\",\"Fields\":[\"" ++ name ++ "\"]\x7d")).andThen
      (valueNames w case rest)

/-- Lines 189-195 and 197-203: the loop over the specs of a `const` or `var` group. -/
def valueSpecs (w : Stream) (case : String) : List Spec → Bool → Outcome × Bool
  | [], first => (skip, first)
  | spec :: rest, first =>
    ((beforeItem w first).andThen
        ((match spec with
          | .valueSpec names _ _ => valueNames w case names
          | _ => abort .specNotValueSpec).andThen
          (valueSpecs w case rest false).1),
      (valueSpecs w case rest false).2)

/-- Lines 211-219: the receiver of a function declaration. -/
def translateReceiver (w : Stream) (name : String) : Option (List Field) → Outcome
  | none => fprint w "null"
  | some [.mk [r] t] => translateField w r t
  | some _ => abort (.unexpectedNumberOfReceivers name)

/-- Lines 171-226: the body of the loop of `translateDeclarations`, entered with the
flag `firstDeclaration`; it returns the flag it leaves. -/
def translateDeclaration (w : Stream) (decl : Decl) (first : Bool) : Outcome × Bool :=
  match decl with
  | .genDecl .IMPORT _ =>
    ((beforeItem w first).andThen (fprint w "\x7b\"Case\":\"Import\"\x7d"), false)
  | .genDecl .TYPE specs => typeSpecs w specs first
  | .genDecl .CONST specs => valueSpecs w "Const" specs first
  | .genDecl .VAR specs => valueSpecs w "Var" specs first
  | .genDecl tok _ => (abort (.unexpectedGenDecl tok), first)
  | .funcDecl recv name type =>
    ((beforeItem w first).andThen
        ((fprint w ("\x7b\"Case\":\"Func\",\"Fields\":[\"" ++ name ++ "\",")).andThen
          ((translateReceiver w name recv).andThen
            ((fprint w ",").andThen
              ((translateFuncType w type).andThen
                (fprint w "]\x7d"))))),
      false)
  | .other typeName =>
    (fprint Stream.stderr ("Ignoring declaration " ++ typeName ++ "\n"), first)

/-- Lines 169-227: the loop over the declarations. -/
def declarationsLoop (w : Stream) : List Decl → Bool → Outcome × Bool
  | [], first => (skip, first)
  | decl :: rest, first =>
    ((translateDeclaration w decl first).1.andThen
        (declarationsLoop w rest (translateDeclaration w decl first).2).1,
      (declarationsLoop w rest (translateDeclaration w decl first).2).2)

/-- Lines 159-229, `translateDeclarations`. -/
def translateDeclarations (w : Stream) (declarations : List Decl) : Outcome :=
  (fprint w "[\n").andThen
    ((declarationsLoop w declarations true).1.andThen
      (fprint w "\n]\n"))

/-! ## Reading a trace -/

/-- The text a trace leaves on the stream `s`. -/
def written (s : Stream) : List Event → String
  | [] => ""
  | e :: rest => if e.stream = s then e.text ++ written s rest else written s rest

/-- The text a trace leaves on the writer `w` and the standard output taken together,
in the order written.  For `w = Stream.stdout`, as `main` calls the translator, it is
the standard output. -/
def primary (w : Stream) : List Event → String
  | [] => ""
  | e :: rest =>
    if e.stream = w ∨ e.stream = Stream.stdout then e.text ++ primary w rest
    else primary w rest

/-! ## The shapes the output is compared with -/

/-- The items in order, the separator `,\n` (what `fmt.Fprintln(w, ",")` writes) before
each item but the first; before the first too when `first` is false. -/
def separated : Bool → List String → String
  | _, [] => ""
  | first, item :: rest => (if first then "" else ",\n") ++ item ++ separated false rest

/-- A serialized field: the object with the keys `Name` and `Type`. -/
def fieldEntry (name type : String) : String :=
  "\x7b\"Name\":\"" ++ name ++ "\",\"Type\":" ++ type ++ "\x7d"

/-- A serialized unnamed result: the object with the only key `Type`. -/
def unnamedEntry (type : String) : String :=
  "\x7b\"Type\":" ++ type ++ "\x7d"

/-- The serialized value of a type expression: what `translateType` leaves on the
primary output. -/
def typeText (w : Stream) (t : Expr) : String :=
  primary w (translateType w t).trace

/-- The entries of one field group: one field per name. -/
def fieldEntries (w : Stream) (f : Field) : List String :=
  f.names.map (fun n => fieldEntry n (typeText w f.type))

/-- The entries of one result group: one field per name, one unnamed result when the
group has no name. -/
def resultEntries (w : Stream) (f : Field) : List String :=
  if f.names = [] then [unnamedEntry (typeText w f.type)] else fieldEntries w f

/-- The serialized `Import` element. -/
def importElement : String := "\x7b\"Case\":\"Import\"\x7d"

/-- The serialized `Type` element: the name, then the serialized underlying type. -/
def typeElement (w : Stream) (name : String) (t : Expr) : String :=
  "\x7b\"Case\":\"Type\",\"Fields\":[\"" ++ name ++ "\"," ++ typeText w t ++ "]\x7d"

/-- The serialized `Const` or `Var` element: the case and the name. -/
def valueElement (case name : String) : String :=
  "\x7b\"Case\":\"" ++ case ++ "\",\"Fields\":[\"" ++ name ++ "\"]\x7d"

/-- The serialized receiver: `null` when absent, the field when it is one group with
one name. -/
def receiverText (w : Stream) : Option (List Field) → String
  | none => "null"
  | some [.mk [r] t] => fieldEntry r (typeText w t)
  | some _ => ""

/-- The serialized `Func` element: the name, the receiver, the signature. -/
def funcElement (w : Stream) (recv : Option (List Field)) (name : String)
    (type : FuncType) : String :=
  "\x7b\"Case\":\"Func\",\"Fields\":[\"" ++ name ++ "\"," ++ receiverText w recv ++ "," ++
    primary w (translateFuncType w type).trace ++ "]\x7d"

/-- The names a value spec declares. -/
def Spec.valueNames : Spec → List String
  | .valueSpec names _ _ => names
  | _ => []

/-- Whether a spec is an `*ast.ValueSpec`. -/
def Spec.isValueSpec : Spec → Bool
  | .valueSpec _ _ _ => true
  | _ => false

/-- The element a type spec stands for. -/
def specTypeElements (w : Stream) : Spec → List String
  | .typeSpec name _ t => [typeElement w name t]
  | _ => []

/-- The elements a top-level declaration stands for: an import group one, a type
group one per spec, a const or var group one per declared name, a function one, any
other declaration none. -/
def declElements (w : Stream) : Decl → List String
  | .genDecl .IMPORT _ => [importElement]
  | .genDecl .TYPE specs => specs.flatMap (specTypeElements w)
  | .genDecl .CONST specs => (specs.flatMap Spec.valueNames).map (valueElement "Const")
  | .genDecl .VAR specs => (specs.flatMap Spec.valueNames).map (valueElement "Var")
  | .genDecl _ _ => []
  | .funcDecl recv name type => [funcElement w recv name type]
  | .other _ => []

/-- The text consists of the items, in order, with nothing but separators `,\n`
before, between and after them. -/
inductive Laid : List String → String → Prop where
  | done : Laid [] ""
  | sep {items : List String} {text : String} : Laid items text → Laid items (",\n" ++ text)
  | item {items : List String} {text : String} (e : String) :
      Laid items text → Laid (e :: items) (e ++ text)

/-! ## Sample inputs -/

/-- The declaration `const A, B = 1, 2`. -/
def constPair : List Decl :=
  [.genDecl .CONST [.valueSpec ["A", "B"] none [.basicLit .INT "1", .basicLit .INT "2"]]]

/-- The type expression `*int`. -/
def pointerToInt : Expr := .starExpr (.ident "int")

/-- The parameter group `x, y int`. -/
def paramsXY : Field := .mk ["x", "y"] (.ident "int")

/-- The struct type `struct { name, surname string; age int }`. -/
def personStruct : Expr :=
  .structType [.mk ["name", "surname"] (.ident "string"), .mk ["age"] (.ident "int")] false

/-- The signature `func(x, y int) (result int, ok bool)`. -/
def safeDivideType : FuncType :=
  .mk none [paramsXY] (some [.mk ["result"] (.ident "int"), .mk ["ok"] (.ident "bool")])

/-- The signature `func()`: no parameters, no results. -/
def dummyType : FuncType := .mk none [] none

/-- The specs of the group `type ( A int; B[T any] *A )`: name, type parameters,
underlying type. -/
def typePair : List (String × Option (List Field) × Expr) :=
  [("A", none, .ident "int"),
    ("B", some [.mk ["T"] (.ident "any")], .starExpr (.ident "A"))]

/-- The spec of `const A, B = 1, 2`. -/
def constSpecUntyped : Spec := .valueSpec ["A", "B"] none [.basicLit .INT "1", .basicLit .INT "2"]

/-- The spec of `const A, B string = "x", "y"`. -/
def constSpecTyped : Spec :=
  .valueSpec ["A", "B"] (some (.ident "string"))
    [.basicLit (.other "STRING") "\"x\"", .basicLit (.other "STRING") "\"y\""]

/-! ## Aborts and diagnostics -/

/-- The format string of the `log.Panicf` or `log.Fatalf` call behind an abort (lines
55, 75, 85, 87, 91, 93, 96, 115, 205, 213); a failed type assertion (lines 39, 180,
191, 199) is a panic of the runtime and has none. -/
def Err.logFormat : Err → Option String
  | .namelessField => some "Structures with nameless field are not supported\n"
  | .namelessMethod => some "Interfaces with nameless method are not supported\n"
  | .unsupportedUnaryOperator => some "Unsupported unary operator%v\n"
  | .unknownUnaryOperator => some "Unknown unary operator%v\n"
  | .unsupportedBinaryOperator => some "Unsupported binary operator%v\n"
  | .unknownBinaryOperator => some "Unknown binary operator%v\n"
  | .unknownType _ => some "Unknown type %v\n"
  | .arrayLengthNotBasicLit => none
  | .parameterWithoutName => some "Unexpected function parameter without name\n"
  | .unexpectedGenDecl _ => some "Unexpected GenDecl with token %v\n"
  | .unexpectedNumberOfReceivers _ => some "Function %s has unexpected number of receivers\n"
  | .specNotTypeSpec => none
  | .specNotValueSpec => none

/-- The aborts that `translateType` and `translateFuncType` can end with. -/
def Err.raisedByType : Err → Bool
  | .namelessField => true
  | .namelessMethod => true
  | .unsupportedUnaryOperator => true
  | .unknownUnaryOperator => true
  | .unsupportedBinaryOperator => true
  | .unknownBinaryOperator => true
  | .unknownType _ => true
  | .arrayLengthNotBasicLit => true
  | .parameterWithoutName => true
  | _ => false

/-- The diagnostic lines of a trace: the texts written to the standard error, in
order. -/
def diagnostics : List Event → List String
  | [] => []
  | e :: rest => if e.stream = Stream.stderr then e.text :: diagnostics rest else diagnostics rest

/-- The type expression `[4]int`. -/
def arrayOfFourInt : Expr := .arrayType (some (.basicLit .INT "4")) (.ident "int")

/-- A signature built by hand: a first parameter group without names, of type `int`,
a second group `s string`, and the unnamed result `error`. -/
def unnamedParamType : FuncType :=
  .mk none [.mk [] (.ident "int"), .mk ["s"] (.ident "string")]
    (some [.mk [] (.ident "error")])

/-- The interface type `interface { io.Reader; Close() error }`: its first method group,
the embedded interface, has no name. -/
def embeddingInterface : Expr :=
  .interfaceType
    [.mk [] (.selectorExpr (.ident "io") "Reader"),
      .mk ["Close"] (.funcType (.mk none [] (some [.mk [] (.ident "error")])))]
    false

/-- The struct type `struct { sync.Mutex; n int }`: its first field group, the embedded
field, has no name. -/
def embeddingStruct : Expr :=
  .structType [.mk [] (.selectorExpr (.ident "sync") "Mutex"), .mk ["n"] (.ident "int")] false

/-! ## Reasoning by cases on the type expression -/

/-- The cases of an argument about every type expression: each node kind, with the
property assumed of the sub-expressions that `translateType` may visit (the base of a
selector or pointer, key and value of a map, the element of an array, the types of the
field groups of a struct, interface or signature). -/
structure TypeCases (P : Expr → Prop) : Prop where
  ident : ∀ name, P (.ident name)
  selectorExpr : ∀ x sel, P x → P (.selectorExpr x sel)
  starExpr : ∀ x, P x → P (.starExpr x)
  funcType : ∀ typeParams params results, (∀ f ∈ params, P f.type) →
    (∀ f ∈ results.getD [], P f.type) → P (.funcType (.mk typeParams params results))
  mapType : ∀ key value, P key → P value → P (.mapType key value)
  arrayType : ∀ len elt, P elt → P (.arrayType len elt)
  structType : ∀ fields incomplete, (∀ f ∈ fields, P f.type) →
    P (.structType fields incomplete)
  interfaceType : ∀ methods incomplete, (∀ f ∈ methods, P f.type) →
    P (.interfaceType methods incomplete)
  unaryExpr : ∀ op x, P (.unaryExpr op x)
  binaryExpr : ∀ x op y, P (.binaryExpr x op y)
  basicLit : ∀ kind value, P (.basicLit kind value)
  other : ∀ typeName, P (.other typeName)

/-- What the three loops over field groups that reject a group without names have in
common (lines 53-61, 73-81, 113-121): the loop `loop`, the abort `nameless` it ends with
at such a group. -/
structure GroupLoop (loop : Stream → List Field → Bool → Outcome × Bool) (nameless : Err) :
    Prop where
  nil : ∀ w first, loop w [] first = (skip, first)
  rejects : ∀ w t rest first, loop w (Field.mk [] t :: rest) first = (abort nameless, first)
  named : ∀ w names t rest first, names ≠ [] →
    loop w (Field.mk names t :: rest) first =
      ((translateNames w names t first).1.andThen
          (loop w rest (translateNames w names t first).2).1,
        (loop w rest (translateNames w names t first).2).2)

/-! ## Supported type expressions -/

/-- An array length that is absent or a literal. -/
def literalOrAbsent : Option Expr → Bool
  | none => true
  | some (.basicLit _ _) => true
  | some _ => false

mutual
/-- The supported type expressions: an identifier; a selector or pointer with a
supported base; a map with supported key and value; an array with an absent or literal
length and a supported element; a struct or interface whose groups all have a name and
a supported type; a function type whose parameter groups all have a name and whose
parameter and result types are all supported; no other node. -/
def supported : Expr → Bool
  | .ident _ => true
  | .selectorExpr x _ => supported x
  | .starExpr x => supported x
  | .funcType t => supportedFunc t
  | .mapType key value => supported key && supported value
  | .arrayType len elt => literalOrAbsent len && supported elt
  | .structType fields _ => supportedGroups fields
  | .interfaceType methods _ => supportedGroups methods
  | .unaryExpr _ _ => false
  | .binaryExpr _ _ _ => false
  | .basicLit _ _ => false
  | .other _ => false
/-- A supported signature: named parameter groups, supported parameter and result
types. -/
def supportedFunc : FuncType → Bool
  | .mk _ params none => supportedGroups params
  | .mk _ params (some results) => supportedGroups params && supportedResults results
/-- Groups that all have at least one name and a supported type. -/
def supportedGroups : List Field → Bool
  | [] => true
  | .mk names t :: rest => !names.isEmpty && supported t && supportedGroups rest
/-- Result groups, named or not, that all have a supported type. -/
def supportedResults : List Field → Bool
  | [] => true
  | .mk _ t :: rest => supported t && supportedResults rest
end

/-- The type expression `map[string][]*pkg.T`. -/
def mapOfSlices : Expr :=
  .mapType (.ident "string") (.arrayType none (.starExpr (.selectorExpr (.ident "pkg") "T")))

/-! ## The shape of a serialized type -/

/-- The serialized array length: `null` when absent, the literal's text. -/
def lengthText : Option Expr → String
  | none => "null"
  | some (.basicLit _ value) => value
  | some _ => ""

/-- The serialized value of a type expression in terms of the serialized values of
its sub-expressions: an object with the keys `Case` and `Fields` for every node kind
but the function type, which is the object with the keys `Params` and `Results`. -/
def valueShape (w : Stream) : Expr → String
  | .ident name => "\x7b\"Case\":\"Ident\",\"Fields\":[" ++ ("\"" ++ name ++ "\"") ++ "]\x7d"
  | .selectorExpr x sel =>
    "\x7b\"Case\":\"Selector\",\"Fields\":[" ++ (typeText w x ++ ",\"" ++ sel ++ "\"") ++ "]\x7d"
  | .starExpr x => "\x7b\"Case\":\"Star\",\"Fields\":[" ++ typeText w x ++ "]\x7d"
  | .funcType (.mk _ params results) =>
    "\x7b\"Params\":[" ++ separated true (params.flatMap (fieldEntries w)) ++
      "],\"Results\":[" ++ separated true ((results.getD []).flatMap (resultEntries w)) ++
      "]\x7d"
  | .mapType key value =>
    "\x7b\"Case\":\"Map\",\"Fields\":[" ++ (typeText w key ++ "," ++ typeText w value) ++ "]\x7d"
  | .arrayType len elt =>
    "\x7b\"Case\":\"Array\",\"Fields\":[" ++ (lengthText len ++ "," ++ typeText w elt) ++ "]\x7d"
  | .structType fields incomplete =>
    "\x7b\"Case\":\"Struct\",\"Fields\":[" ++
      (fmtBool incomplete ++ ",[" ++ separated true (fields.flatMap (fieldEntries w)) ++ "]") ++
      "]\x7d"
  | .interfaceType methods incomplete =>
    "\x7b\"Case\":\"Interface\",\"Fields\":[" ++
      (fmtBool incomplete ++ ",[" ++ separated true (methods.flatMap (fieldEntries w)) ++ "]") ++
      "]\x7d"
  | _ => ""

/-- The interface type `interface { Close() error }`: the type of its method is a
function type. -/
def closerInterface : Expr :=
  .interfaceType [.mk ["Close"] (.funcType (.mk none [] (some [.mk [] (.ident "error")])))]
    false

/-! ## One more diagnostic line -/

/-- The outcome `x` is the outcome `y` with the one event `d` written in between: the
trace of `x` is the trace of `y` with `d` inserted, and both end alike. -/
def Inserted (d : Event) (x y : Outcome) : Prop :=
  ∃ a b : List Event, y.trace = a ++ b ∧ x.trace = a ++ d :: b ∧ x.err = y.err

/-- The declarations `import "fmt"`, a bad declaration, `func Dummy() {}`. -/
def declsWithBadDecl : List Decl :=
  [.genDecl .IMPORT [.importSpec "\"fmt\""], .other "*ast.BadDecl",
    .funcDecl none "Dummy" dummyType]

/-! ## Type expressions without type parameters inside -/

mutual
/-- No function type that `translateType` may visit inside the expression declares
type parameters. -/
def declaresNone : Expr → Bool
  | .ident _ => true
  | .selectorExpr x _ => declaresNone x
  | .starExpr x => declaresNone x
  | .funcType t => funcDeclaresNone t
  | .mapType key value => declaresNone key && declaresNone value
  | .arrayType _ elt => declaresNone elt
  | .structType fields _ => groupsDeclareNone fields
  | .interfaceType methods _ => groupsDeclareNone methods
  | .unaryExpr _ _ => true
  | .binaryExpr _ _ _ => true
  | .basicLit _ _ => true
  | .other _ => true
/-- The function type declares no type parameters, and none is declared inside its
parameter and result types. -/
def funcDeclaresNone : FuncType → Bool
  | .mk typeParams params none => typeParams.isNone && groupsDeclareNone params
  | .mk typeParams params (some results) =>
    typeParams.isNone && groupsDeclareNone params && groupsDeclareNone results
/-- No type of the groups has type parameters declared inside. -/
def groupsDeclareNone : List Field → Bool
  | [] => true
  | .mk _ t :: rest => declaresNone t && groupsDeclareNone rest
end

/-- The type parameters `[T any]` of `func Identity[T any](x T) T` in the sample
input. -/
def identityTypeParams : List Field := [.mk ["T"] (.ident "any")]

/-- The parameters `(x T)`. -/
def identityParams : List Field := [.mk ["x"] (.ident "T")]

/-- The results `T`. -/
def identityResults : Option (List Field) := some [.mk [] (.ident "T")]

/-- The type parameters `[K comparable, I ~int | ~uint]` of `KeyId` in the sample
input. -/
def keyIdTypeParams : List Field :=
  [.mk ["K"] (.ident "comparable"),
    .mk ["I"] (.binaryExpr (.unaryExpr .TILDE (.ident "int")) .OR
      (.unaryExpr .TILDE (.ident "uint")))]

/-- The underlying type `struct { Key K; Id I }` of `KeyId`. -/
def keyIdStruct : Expr :=
  .structType [.mk ["Key"] (.ident "K"), .mk ["Id"] (.ident "I")] false

/-- The declaration `func (T) M[U any]() {}`: a receiver group without names and a
type-parameter list. -/
def methodWithTypeParams : Decl :=
  .funcDecl (some [.mk [] (.ident "T")]) "M" (.mk (some [.mk ["U"] (.ident "any")]) [] none)

/-! ## Sequencing and reading: basic facts -/

theorem andThen_err_none (a b : Outcome) :
    (a.andThen b).err = none ↔ a.err = none ∧ b.err = none := by
  unfold Outcome.andThen
  cases h : a.err <;> simp [h]

theorem andThen_trace (a b : Outcome) (h : a.err = none) :
    (a.andThen b).trace = a.trace ++ b.trace := by
  unfold Outcome.andThen
  simp [h]

theorem andThen_err (a b : Outcome) (h : a.err = none) :
    (a.andThen b).err = b.err := by
  unfold Outcome.andThen
  simp [h]

theorem andThen_of_err (a b : Outcome) (e : Err) (h : a.err = some e) :
    a.andThen b = a := by
  unfold Outcome.andThen
  simp [h]

theorem primary_append (w : Stream) (a b : List Event) :
    primary w (a ++ b) = primary w a ++ primary w b := by
  induction a with
  | nil => simp [primary]
  | cons e rest ih =>
    show primary w (e :: (rest ++ b)) = _
    simp only [primary]
    split
    · rw [ih, String.append_assoc]
    · exact ih

theorem primary_andThen (w : Stream) (a b : Outcome) (h : a.err = none) :
    primary w (a.andThen b).trace = primary w a.trace ++ primary w b.trace := by
  rw [andThen_trace a b h, primary_append]

@[simp] theorem fprint_err (w : Stream) (s : String) : (fprint w s).err = none := rfl

@[simp] theorem printf_err (s : String) : (printf s).err = none := rfl

@[simp] theorem skip_err : skip.err = none := rfl

@[simp] theorem beforeItem_err (w : Stream) (first : Bool) :
    (beforeItem w first).err = none := by
  unfold beforeItem
  split <;> rfl

@[simp] theorem primary_fprint (w : Stream) (s : String) :
    primary w (fprint w s).trace = s := by
  simp [fprint, primary]

@[simp] theorem primary_printf (w : Stream) (s : String) :
    primary w (printf s).trace = s := by
  simp [printf, fprint, primary]

@[simp] theorem primary_skip (w : Stream) : primary w skip.trace = "" := rfl

theorem primary_stderr (w : Stream) (s : String) (hw : w ≠ Stream.stderr) :
    primary w (fprint Stream.stderr s).trace = "" := by
  have h : Stream.stderr ≠ w := fun h => hw h.symm
  simp [fprint, primary, h]

@[simp] theorem primary_beforeItem (w : Stream) (first : Bool) :
    primary w (beforeItem w first).trace = if first then "" else ",\n" := by
  cases first <;> simp [beforeItem]

theorem separated_append (first : Bool) (a b : List String) :
    separated first (a ++ b) = separated first a ++ separated (first && a.isEmpty) b := by
  induction a generalizing first with
  | nil => simp [separated]
  | cons e rest ih =>
    show separated first (e :: (rest ++ b)) = _
    simp only [separated, ih, List.isEmpty_cons, Bool.and_false, Bool.false_and,
      String.append_assoc]

/-! ## The loops over names and groups -/

theorem translateField_err (w : Stream) (name : String) (t : Expr) :
    (translateField w name t).err = (translateType w t).err := by
  rw [translateField]
  cases h : (translateType w t).err with
  | none => simp [andThen_err, h]
  | some e =>
    rw [andThen_err _ _ (fprint_err _ _), andThen_of_err _ _ e h, h]

theorem primary_translateField (w : Stream) (name : String) (t : Expr)
    (h : (translateType w t).err = none) :
    primary w (translateField w name t).trace = fieldEntry name (typeText w t) := by
  rw [translateField, primary_andThen _ _ _ (fprint_err _ _), primary_andThen _ _ _ h]
  simp [fieldEntry, typeText, String.append_assoc]

theorem translateNames_spec (w : Stream) (t : Expr) (h : (translateType w t).err = none)
    (names : List String) (first : Bool) :
    (translateNames w names t first).1.err = none ∧
      (translateNames w names t first).2 = (first && names.isEmpty) ∧
      primary w (translateNames w names t first).1.trace =
        separated first (names.map (fun n => fieldEntry n (typeText w t))) := by
  induction names generalizing first with
  | nil => rw [translateNames]; simp [separated]
  | cons n rest ih =>
    rw [translateNames]
    obtain ⟨h1, h2, h3⟩ := ih false
    have hf : ((beforeItem w first).andThen (translateField w n t)).err = none := by
      rw [andThen_err_none, translateField_err]; simp [h]
    refine ⟨?_, ?_, ?_⟩
    · rw [andThen_err_none]; exact ⟨hf, h1⟩
    · simp [h2]
    · simp only []
      rw [primary_andThen _ _ _ hf, primary_andThen _ _ _ (beforeItem_err _ _), h3,
        primary_translateField _ _ _ h]
      simp [separated, String.append_assoc]

theorem skip_andThen (a : Outcome) : skip.andThen a = a := by
  cases a; rfl

theorem andThen_assoc (a b c : Outcome) :
    (a.andThen b).andThen c = a.andThen (b.andThen c) := by
  cases ha : a.err with
  | some e => rw [andThen_of_err a b e ha, andThen_of_err a c e ha, andThen_of_err a _ e ha]
  | none =>
    cases hb : b.err with
    | some e =>
      have hab : (a.andThen b).err = some e := by rw [andThen_err a b ha, hb]
      rw [andThen_of_err _ c e hab, andThen_of_err b c e hb]
    | none =>
      unfold Outcome.andThen
      simp [ha, hb]

theorem structFields_cons (w : Stream) (names : List String) (t : Expr) (rest : List Field)
    (first : Bool) (hn : names ≠ []) :
    structFields w (Field.mk names t :: rest) first =
      ((translateNames w names t first).1.andThen
          (structFields w rest (translateNames w names t first).2).1,
        (structFields w rest (translateNames w names t first).2).2) := by
  rw [structFields]
  simp [hn]

theorem interfaceMethods_cons (w : Stream) (names : List String) (t : Expr)
    (rest : List Field) (first : Bool) (hn : names ≠ []) :
    interfaceMethods w (Field.mk names t :: rest) first =
      ((translateNames w names t first).1.andThen
          (interfaceMethods w rest (translateNames w names t first).2).1,
        (interfaceMethods w rest (translateNames w names t first).2).2) := by
  rw [interfaceMethods]
  simp [hn]

theorem funcParams_cons (w : Stream) (names : List String) (t : Expr) (rest : List Field)
    (first : Bool) (hn : names ≠ []) :
    funcParams w (Field.mk names t :: rest) first =
      ((translateNames w names t first).1.andThen
          (funcParams w rest (translateNames w names t first).2).1,
        (funcParams w rest (translateNames w names t first).2).2) := by
  rw [funcParams]
  simp [hn]

theorem funcResults_cons (w : Stream) (names : List String) (t : Expr) (rest : List Field)
    (first : Bool) (hn : names ≠ []) :
    funcResults w (Field.mk names t :: rest) first =
      ((translateNames w names t first).1.andThen
          (funcResults w rest (translateNames w names t first).2).1,
        (funcResults w rest (translateNames w names t first).2).2) := by
  rw [funcResults]
  simp [hn]

theorem funcResults_cons_nameless (w : Stream) (t : Expr) (rest : List Field)
    (first : Bool) :
    funcResults w (Field.mk [] t :: rest) first =
      (((beforeItem w first).andThen (translateFieldWithoutName w t)).andThen
          (funcResults w rest false).1,
        (funcResults w rest false).2) := by
  rw [funcResults]
  simp

theorem structFields_append (w : Stream) (l : List Field) (pre : List Field) (first : Bool)
    (h : (structFields w pre first).1.err = none) :
    (structFields w (pre ++ l) first).1 =
        (structFields w pre first).1.andThen (structFields w l (structFields w pre first).2).1 ∧
      (structFields w (pre ++ l) first).2 =
        (structFields w l (structFields w pre first).2).2 := by
  induction pre generalizing first with
  | nil => rw [structFields]; simp [skip_andThen]
  | cons f rest ih =>
    obtain ⟨names, t⟩ := f
    by_cases hn : names = []
    · subst hn
      rw [structFields] at h
      simp [abort] at h
    · rw [structFields_cons _ _ _ _ _ hn] at h ⊢
      rw [List.cons_append, structFields_cons _ _ _ _ _ hn]
      rw [andThen_err_none] at h
      obtain ⟨h1, h2⟩ := ih _ h.2
      exact ⟨by rw [h1, andThen_assoc], h2⟩

theorem interfaceMethods_append (w : Stream) (l : List Field) (pre : List Field)
    (first : Bool) (h : (interfaceMethods w pre first).1.err = none) :
    (interfaceMethods w (pre ++ l) first).1 =
        (interfaceMethods w pre first).1.andThen
          (interfaceMethods w l (interfaceMethods w pre first).2).1 ∧
      (interfaceMethods w (pre ++ l) first).2 =
        (interfaceMethods w l (interfaceMethods w pre first).2).2 := by
  induction pre generalizing first with
  | nil => rw [interfaceMethods]; simp [skip_andThen]
  | cons f rest ih =>
    obtain ⟨names, t⟩ := f
    by_cases hn : names = []
    · subst hn
      rw [interfaceMethods] at h
      simp [abort] at h
    · rw [interfaceMethods_cons _ _ _ _ _ hn] at h ⊢
      rw [List.cons_append, interfaceMethods_cons _ _ _ _ _ hn]
      rw [andThen_err_none] at h
      obtain ⟨h1, h2⟩ := ih _ h.2
      exact ⟨by rw [h1, andThen_assoc], h2⟩

theorem funcParams_append (w : Stream) (l : List Field) (pre : List Field) (first : Bool)
    (h : (funcParams w pre first).1.err = none) :
    (funcParams w (pre ++ l) first).1 =
        (funcParams w pre first).1.andThen (funcParams w l (funcParams w pre first).2).1 ∧
      (funcParams w (pre ++ l) first).2 =
        (funcParams w l (funcParams w pre first).2).2 := by
  induction pre generalizing first with
  | nil => rw [funcParams]; simp [skip_andThen]
  | cons f rest ih =>
    obtain ⟨names, t⟩ := f
    by_cases hn : names = []
    · subst hn
      rw [funcParams] at h
      simp [abort] at h
    · rw [funcParams_cons _ _ _ _ _ hn] at h ⊢
      rw [List.cons_append, funcParams_cons _ _ _ _ _ hn]
      rw [andThen_err_none] at h
      obtain ⟨h1, h2⟩ := ih _ h.2
      exact ⟨by rw [h1, andThen_assoc], h2⟩

theorem funcResults_append (w : Stream) (l : List Field) (pre : List Field) (first : Bool)
    (h : (funcResults w pre first).1.err = none) :
    (funcResults w (pre ++ l) first).1 =
        (funcResults w pre first).1.andThen (funcResults w l (funcResults w pre first).2).1 ∧
      (funcResults w (pre ++ l) first).2 =
        (funcResults w l (funcResults w pre first).2).2 := by
  induction pre generalizing first with
  | nil => rw [funcResults]; simp [skip_andThen]
  | cons f rest ih =>
    obtain ⟨names, t⟩ := f
    by_cases hn : names = []
    · subst hn
      rw [funcResults_cons_nameless] at h ⊢
      rw [List.cons_append, funcResults_cons_nameless]
      rw [andThen_err_none] at h
      obtain ⟨h1, h2⟩ := ih _ h.2
      exact ⟨by rw [h1]; simp only [andThen_assoc], h2⟩
    · rw [funcResults_cons _ _ _ _ _ hn] at h ⊢
      rw [List.cons_append, funcResults_cons _ _ _ _ _ hn]
      rw [andThen_err_none] at h
      obtain ⟨h1, h2⟩ := ih _ h.2
      exact ⟨by rw [h1, andThen_assoc], h2⟩

theorem isEmpty_map_eq (f : String → String) (l : List String) :
    (l.map f).isEmpty = l.isEmpty := by
  cases l <;> rfl

theorem translateType_ok_of_translateNames (w : Stream) (names : List String) (t : Expr)
    (first : Bool) (hn : names ≠ []) (h : (translateNames w names t first).1.err = none) :
    (translateType w t).err = none := by
  cases names with
  | nil => exact absurd rfl hn
  | cons n rest =>
    rw [translateNames] at h
    simp only [andThen_err_none, translateField_err] at h
    exact h.1.2

theorem translateFieldWithoutName_err (w : Stream) (t : Expr) :
    (translateFieldWithoutName w t).err = (translateType w t).err := by
  rw [translateFieldWithoutName]
  cases h : (translateType w t).err with
  | none => simp [andThen_err, h]
  | some e =>
    rw [andThen_err _ _ (fprint_err _ _), andThen_of_err _ _ e h, h]

theorem primary_translateFieldWithoutName (w : Stream) (t : Expr)
    (h : (translateType w t).err = none) :
    primary w (translateFieldWithoutName w t).trace = unnamedEntry (typeText w t) := by
  rw [translateFieldWithoutName, primary_andThen _ _ _ (fprint_err _ _),
    primary_andThen _ _ _ h]
  simp [unnamedEntry, typeText, String.append_assoc]

theorem structFields_text (w : Stream) (fields : List Field) (first : Bool)
    (h : ∀ f ∈ fields, f.names ≠ [] ∧ (translateType w f.type).err = none) :
    (structFields w fields first).1.err = none ∧
      (structFields w fields first).2 = (first && fields.isEmpty) ∧
      primary w (structFields w fields first).1.trace =
        separated first (fields.flatMap (fieldEntries w)) := by
  induction fields generalizing first with
  | nil => rw [structFields]; simp [separated]
  | cons f rest ih =>
    obtain ⟨names, t⟩ := f
    have hf := h (Field.mk names t) (List.mem_cons_self _ _)
    simp only [Field.names, Field.type] at hf
    obtain ⟨n1, n2, n3⟩ := translateNames_spec w t hf.2 names first
    have hne : names.isEmpty = false := by
      cases names with
      | nil => exact absurd rfl hf.1
      | cons _ _ => rfl
    rw [hne, Bool.and_false] at n2
    obtain ⟨r1, r2, r3⟩ := ih false (fun g hg => h g (List.mem_cons_of_mem _ hg))
    rw [structFields_cons _ _ _ _ _ hf.1, n2]
    refine ⟨?_, ?_, ?_⟩
    · rw [andThen_err_none]; exact ⟨n1, r1⟩
    · simp [r2]
    · show primary w ((translateNames w names t first).1.andThen _).trace = _
      rw [primary_andThen _ _ _ n1, n3, r3, List.flatMap_cons, separated_append]
      simp [fieldEntries, Field.names, Field.type, hne, isEmpty_map_eq]

theorem funcResults_text (w : Stream) (results : List Field) (first : Bool)
    (h : (funcResults w results first).1.err = none) :
    primary w (funcResults w results first).1.trace =
      separated first (results.flatMap (resultEntries w)) := by
  induction results generalizing first with
  | nil => rw [funcResults]; simp [separated]
  | cons f rest ih =>
    obtain ⟨names, t⟩ := f
    by_cases hn : names = []
    · subst hn
      rw [funcResults_cons_nameless] at h ⊢
      rw [andThen_err_none, andThen_err_none, translateFieldWithoutName_err] at h
      have hb : ((beforeItem w first).andThen (translateFieldWithoutName w t)).err = none := by
        rw [andThen_err_none, translateFieldWithoutName_err]; exact h.1
      show primary w (((beforeItem w first).andThen _).andThen _).trace = _
      rw [primary_andThen _ _ _ hb, primary_andThen _ _ _ (beforeItem_err _ _),
        primary_translateFieldWithoutName _ _ h.1.2, ih false h.2, List.flatMap_cons]
      simp [resultEntries, Field.names, Field.type, separated, String.append_assoc]
    · rw [funcResults_cons _ _ _ _ _ hn] at h ⊢
      rw [andThen_err_none] at h
      have ht := translateType_ok_of_translateNames w names t first hn h.1
      obtain ⟨n1, n2, n3⟩ := translateNames_spec w t ht names first
      have hne : names.isEmpty = false := by
        cases names with
        | nil => exact absurd rfl hn
        | cons _ _ => rfl
      rw [hne, Bool.and_false] at n2
      rw [n2] at h ⊢
      show primary w ((translateNames w names t first).1.andThen _).trace = _
      rw [primary_andThen _ _ _ n1, n3, ih false h.2, List.flatMap_cons, separated_append]
      simp [resultEntries, fieldEntries, Field.names, Field.type, hn, hne, isEmpty_map_eq]

/-! ## The loops over specs and declarations -/

theorem Laid.append {a b : List String} {s t : String} (ha : Laid a s) (hb : Laid b t) :
    Laid (a ++ b) (s ++ t) := by
  induction ha with
  | done => simpa using hb
  | sep _ ih => rw [String.append_assoc]; exact Laid.sep ih
  | item e _ ih => rw [String.append_assoc]; exact Laid.item e ih

theorem Laid.separated (first : Bool) (items : List String) :
    Laid items (separated first items) := by
  induction items generalizing first with
  | nil => exact Laid.done
  | cons e rest ih =>
    cases first
    · simp only [GoBinDragon.separated, Bool.false_eq_true, if_false, String.append_assoc]
      exact Laid.sep (Laid.item e (ih false))
    · simp only [GoBinDragon.separated, if_true, String.empty_append]
      exact Laid.item e (ih false)

theorem diag_err (c : Bool) (s : String) :
    (if c then fprint Stream.stderr s else skip).err = none := by
  cases c <;> rfl

theorem primary_diag (w : Stream) (hw : w ≠ Stream.stderr) (c : Bool) (s : String) :
    primary w (if c then fprint Stream.stderr s else skip).trace = "" := by
  cases c
  · rfl
  · exact primary_stderr w s hw

theorem typeSpecs_text (w : Stream) (hw : w ≠ Stream.stderr) (specs : List Spec)
    (first : Bool) (h : (typeSpecs w specs first).1.err = none) :
    primary w (typeSpecs w specs first).1.trace =
      separated first (specs.flatMap (specTypeElements w)) := by
  induction specs generalizing first with
  | nil => simp [typeSpecs, separated]
  | cons spec rest ih =>
    cases spec with
    | importSpec p => simp [typeSpecs, andThen_err_none, abort] at h
    | valueSpec n t v => simp [typeSpecs, andThen_err_none, abort] at h
    | typeSpec name tp t =>
      simp only [typeSpecs, andThen_err_none, fprint_err, beforeItem_err, diag_err,
        true_and] at h
      simp only [typeSpecs]
      rw [primary_andThen _ _ _ (beforeItem_err _ _), primary_andThen, primary_andThen,
        primary_andThen, primary_andThen, ih false h.2, primary_diag w hw,
        List.flatMap_cons]
      · show _ = separated first (typeElement w name t :: rest.flatMap (specTypeElements w))
        simp only [separated, typeElement, typeText, String.append_assoc,
          String.empty_append, primary_fprint, primary_beforeItem]
      · exact h.1.1
      · exact diag_err _ _
      · rfl
      · simp [andThen_err_none, diag_err, h.1.1]

theorem valueNames_eq (w : Stream) (case : String) (names : List String) :
    valueNames w case names = ⟨names.map (fun n => ⟨w, valueElement case n⟩), none⟩ := by
  induction names with
  | nil => rfl
  | cons n rest ih =>
    simp only [valueNames, ih]
    rfl

theorem valueNames_laid (w : Stream) (case : String) (names : List String) :
    Laid (names.map (valueElement case)) (primary w (valueNames w case names).trace) := by
  rw [valueNames_eq]
  induction names with
  | nil => exact Laid.done
  | cons n rest ih =>
    simp only [List.map_cons, primary, true_or, if_true]
    exact Laid.item _ ih

theorem valueSpecs_laid (w : Stream) (case : String) (specs : List Spec) (first : Bool)
    (h : (valueSpecs w case specs first).1.err = none) :
    Laid ((specs.flatMap Spec.valueNames).map (valueElement case))
      (primary w (valueSpecs w case specs first).1.trace) := by
  induction specs generalizing first with
  | nil => exact Laid.done
  | cons spec rest ih =>
    cases spec with
    | importSpec p => simp [valueSpecs, andThen_err_none, abort] at h
    | typeSpec n tp t => simp [valueSpecs, andThen_err_none, abort] at h
    | valueSpec names t v =>
      have hv : (valueNames w case names).err = none := by rw [valueNames_eq]
      simp only [valueSpecs, andThen_err_none, beforeItem_err, true_and] at h
      simp only [valueSpecs]
      rw [primary_andThen _ _ _ (beforeItem_err _ _), primary_andThen _ _ _ hv,
        List.flatMap_cons, List.map_append]
      have hl := Laid.append (valueNames_laid w case names) (ih false h.2)
      cases first
      · rw [primary_beforeItem]
        exact Laid.sep hl
      · rw [primary_beforeItem]
        simpa [Spec.valueNames] using hl

theorem valueSpecs_ok (w : Stream) (case : String) (specs : List Spec) (first : Bool)
    (h : ∀ s ∈ specs, s.isValueSpec = true) :
    (valueSpecs w case specs first).1.err = none := by
  induction specs generalizing first with
  | nil => rfl
  | cons spec rest ih =>
    have hs := h spec (List.mem_cons_self _ _)
    cases spec with
    | importSpec p => simp [Spec.isValueSpec] at hs
    | typeSpec n tp t => simp [Spec.isValueSpec] at hs
    | valueSpec names t v =>
      simp only [valueSpecs, andThen_err_none, beforeItem_err, true_and]
      exact ⟨by rw [valueNames_eq], ih false (fun s hs => h s (List.mem_cons_of_mem _ hs))⟩

theorem valueSpecs_congr (w : Stream) (case : String) (specs1 specs2 : List Spec)
    (first : Bool) (h1 : ∀ s ∈ specs1, s.isValueSpec = true)
    (h2 : ∀ s ∈ specs2, s.isValueSpec = true)
    (hn : specs1.map Spec.valueNames = specs2.map Spec.valueNames) :
    valueSpecs w case specs1 first = valueSpecs w case specs2 first := by
  induction specs1 generalizing specs2 first with
  | nil =>
    cases specs2 with
    | nil => rfl
    | cons _ _ => simp at hn
  | cons a rest ih =>
    cases specs2 with
    | nil => simp at hn
    | cons b rest2 =>
      simp only [List.map_cons, List.cons.injEq] at hn
      have ha := h1 a (List.mem_cons_self _ _)
      have hb := h2 b (List.mem_cons_self _ _)
      have hr := ih rest2 false (fun s hs => h1 s (List.mem_cons_of_mem _ hs))
        (fun s hs => h2 s (List.mem_cons_of_mem _ hs)) hn.2
      cases a <;> simp [Spec.isValueSpec] at ha
      cases b <;> simp [Spec.isValueSpec] at hb
      simp only [Spec.valueNames] at hn
      simp only [valueSpecs, hr, hn.1]

theorem translateReceiver_text (w : Stream) (name : String) (recv : Option (List Field))
    (h : (translateReceiver w name recv).err = none) :
    primary w (translateReceiver w name recv).trace = receiverText w recv := by
  match recv with
  | none => simp [translateReceiver, receiverText]
  | some [] => simp [translateReceiver, abort] at h
  | some [.mk [] t] => simp [translateReceiver, abort] at h
  | some [.mk [r] t] =>
    simp only [translateReceiver, translateField_err] at h
    simp only [translateReceiver, receiverText]
    exact primary_translateField w r t h
  | some [.mk (_ :: _ :: _) t] => simp [translateReceiver, abort] at h
  | some (_ :: _ :: _) => simp [translateReceiver, abort] at h

theorem funcDecl_text (w : Stream) (recv : Option (List Field)) (name : String)
    (type : FuncType) (first : Bool)
    (h : (translateDeclaration w (Decl.funcDecl recv name type) first).1.err = none) :
    primary w (translateDeclaration w (Decl.funcDecl recv name type) first).1.trace =
      separated first [funcElement w recv name type] := by
  simp only [translateDeclaration, andThen_err_none, beforeItem_err, fprint_err, true_and,
    and_true] at h
  simp only [translateDeclaration]
  rw [primary_andThen _ _ _ (beforeItem_err _ _), primary_andThen _ _ _ (fprint_err _ _),
    primary_andThen _ _ _ h.1, primary_andThen _ _ _ (fprint_err _ _),
    primary_andThen _ _ _ h.2, translateReceiver_text w name recv h.1]
  simp only [separated, funcElement, String.append_assoc, String.append_empty,
    primary_fprint, primary_beforeItem]

theorem translateDeclaration_laid (w : Stream) (hw : w ≠ Stream.stderr) (decl : Decl)
    (first : Bool) (h : (translateDeclaration w decl first).1.err = none) :
    Laid (declElements w decl) (primary w (translateDeclaration w decl first).1.trace) := by
  cases decl with
  | genDecl tok specs =>
    cases tok with
    | IMPORT =>
      simp only [translateDeclaration, declElements]
      rw [primary_andThen _ _ _ (beforeItem_err _ _)]
      have hl := Laid.separated first [importElement]
      simpa [separated, importElement] using hl
    | TYPE =>
      simp only [translateDeclaration] at h ⊢
      rw [typeSpecs_text w hw specs first h]
      exact Laid.separated _ _
    | CONST => exact valueSpecs_laid w "Const" specs first h
    | VAR => exact valueSpecs_laid w "Var" specs first h
    | TILDE => simp [translateDeclaration, abort] at h
    | OR => simp [translateDeclaration, abort] at h
    | INT => simp [translateDeclaration, abort] at h
    | other n => simp [translateDeclaration, abort] at h
  | funcDecl recv name type =>
    rw [funcDecl_text w recv name type first h]
    exact Laid.separated _ _
  | other n =>
    simp only [translateDeclaration, declElements]
    rw [primary_stderr w _ hw]
    exact Laid.done

theorem declarationsLoop_laid (w : Stream) (hw : w ≠ Stream.stderr) (decls : List Decl)
    (first : Bool) (h : (declarationsLoop w decls first).1.err = none) :
    Laid (decls.flatMap (declElements w))
      (primary w (declarationsLoop w decls first).1.trace) := by
  induction decls generalizing first with
  | nil => exact Laid.done
  | cons d rest ih =>
    simp only [declarationsLoop, andThen_err_none] at h
    simp only [declarationsLoop]
    rw [primary_andThen _ _ _ h.1, List.flatMap_cons]
    exact Laid.append (translateDeclaration_laid w hw d first h.1) (ih _ h.2)

/-! ## The sample inputs evaluated, and further facts about the loops -/

theorem constPair_ok : (translateDeclarations Stream.stdout constPair).err = none := by
  simp [constPair, translateDeclarations, declarationsLoop, translateDeclaration, valueSpecs,
    valueNames, andThen_err_none]

theorem translateType_ident_ok (w : Stream) (n : String) :
    (translateType w (Expr.ident n)).err = none := by
  rw [translateType]
  rfl

theorem typeText_ident (w : Stream) (n : String) :
    typeText w (Expr.ident n) = "\x7b\"Case\":\"Ident\",\"Fields\":[\"" ++ n ++ "\"]\x7d" := by
  rw [typeText, translateType, primary_fprint]

theorem funcParams_nil (w : Stream) (first : Bool) : funcParams w [] first = (skip, first) := by
  rw [funcParams]

theorem safeDivideType_ok : (translateFuncType Stream.stdout safeDivideType).err = none := by
  simp [safeDivideType, paramsXY, translateFuncType, funcParams, funcResults, translateNames,
    translateField, translateType, andThen_err_none]

theorem funcParams_paramsXY :
    primary Stream.stdout (funcParams Stream.stdout [paramsXY] true).1.trace =
      "\x7b\"Name\":\"x\",\"Type\":\x7b\"Case\":\"Ident\",\"Fields\":[\"int\"]\x7d\x7d,\n\x7b\"Name\":\"y\",\"Type\":\x7b\"Case\":\"Ident\",\"Fields\":[\"int\"]\x7d\x7d" := by
  simp [paramsXY, funcParams, translateNames, translateField, translateType, beforeItem,
    Outcome.andThen, fprint, skip, primary]

theorem dummyType_ok : (translateFuncType Stream.stdout dummyType).err = none := by
  simp [dummyType, translateFuncType, funcParams, andThen_err_none]

theorem typeSpecs_ok (w : Stream) (specs : List (String × Option (List Field) × Expr))
    (first : Bool) (h : ∀ s ∈ specs, (translateType w s.2.2).err = none) :
    (typeSpecs w (specs.map (fun s => Spec.typeSpec s.1 s.2.1 s.2.2)) first).1.err = none ∧
      (typeSpecs w (specs.map (fun s => Spec.typeSpec s.1 s.2.1 s.2.2)) first).2 =
        (first && specs.isEmpty) := by
  induction specs generalizing first with
  | nil => simp [typeSpecs]
  | cons s rest ih =>
    obtain ⟨r1, r2⟩ := ih false (fun x hx => h x (List.mem_cons_of_mem _ hx))
    have hs := h s (List.mem_cons_self _ _)
    simp only [List.map_cons, typeSpecs, andThen_err_none, beforeItem_err, fprint_err,
      diag_err, true_and, and_true]
    exact ⟨⟨hs, r1⟩, by simp [r2]⟩

theorem typeElements_map (w : Stream) (specs : List (String × Option (List Field) × Expr)) :
    (specs.map (fun s => Spec.typeSpec s.1 s.2.1 s.2.2)).flatMap (specTypeElements w) =
      specs.map (fun s => typeElement w s.1 s.2.2) := by
  induction specs with
  | nil => rfl
  | cons s rest ih =>
    rw [List.map_cons, List.flatMap_cons, ih]
    rfl

theorem typeText_star_ident (w : Stream) (n : String) :
    typeText w (Expr.starExpr (Expr.ident n)) =
      "\x7b\"Case\":\"Star\",\"Fields\":[" ++
        ("\x7b\"Case\":\"Ident\",\"Fields\":[\"" ++ n ++ "\"]\x7d") ++ "]\x7d" := by
  have h := translateType_ident_ok w n
  rw [typeText, translateType, primary_andThen _ _ _ (fprint_err _ _), primary_andThen _ _ _ h,
    primary_fprint, primary_printf, ← typeText, typeText_ident]
  simp only [String.append_assoc]

theorem declarationsLoop_congr (w : Stream) (d1 d2 : Decl)
    (h : ∀ first, translateDeclaration w d1 first = translateDeclaration w d2 first)
    (pre post : List Decl) (first : Bool) :
    declarationsLoop w (pre ++ d1 :: post) first =
      declarationsLoop w (pre ++ d2 :: post) first := by
  induction pre generalizing first with
  | nil => simp only [List.nil_append, declarationsLoop, h]
  | cons d rest ih =>
    show declarationsLoop w (d :: (rest ++ d1 :: post)) first =
      declarationsLoop w (d :: (rest ++ d2 :: post)) first
    simp only [declarationsLoop, ih]

/-! ## The claims -/

/-- C1: when `translateDeclarations` does not fail, its output is the opening bracket,
then the elements of the declarations in input order (an import group one, a type group
one per spec, a const or var group one per name, a function one, any other declaration
none) with nothing but separators around them, then the closing bracket. -/
theorem declarations_in_input_order (w : Stream) (hw : w ≠ Stream.stderr)
    (decls : List Decl) (h : (translateDeclarations w decls).err = none) :
    primary w (translateDeclarations w decls).trace =
        "[\n" ++ primary w (declarationsLoop w decls true).1.trace ++ "\n]\n" ∧
      Laid (decls.flatMap (declElements w))
        (primary w (declarationsLoop w decls true).1.trace) := by
  simp only [translateDeclarations, andThen_err_none, fprint_err, true_and, and_true] at h
  refine ⟨?_, declarationsLoop_laid w hw decls true h⟩
  simp only [translateDeclarations]
  rw [primary_andThen _ _ _ (fprint_err _ _), primary_andThen _ _ _ h]
  simp only [primary_fprint, String.append_assoc]

/-- C1 at `const A, B = 1, 2`: the elements are `Const(A)` then `Const(B)`. -/
theorem declarations_in_input_order_witness :
    Stream.stdout ≠ Stream.stderr ∧
      (translateDeclarations Stream.stdout constPair).err = none ∧
      primary Stream.stdout (translateDeclarations Stream.stdout constPair).trace =
        "[\n" ++ primary Stream.stdout (declarationsLoop Stream.stdout constPair true).1.trace ++
          "\n]\n" ∧
      Laid [valueElement "Const" "A", valueElement "Const" "B"]
        (primary Stream.stdout (declarationsLoop Stream.stdout constPair true).1.trace) :=
  ⟨by decide, constPair_ok,
    declarations_in_input_order Stream.stdout (by decide) constPair constPair_ok⟩

/-- C2 fails at `const A, B = 1, 2`: the two elements are written with no separator
between them, so the output is not the array with a separator between its two
elements. -/
theorem const_pair_written_without_separator :
    (translateDeclarations Stream.stdout constPair).err = none ∧
      written Stream.stdout (translateDeclarations Stream.stdout constPair).trace =
        "[\n\x7b\"Case\":\"Const\",\"Fields\":[\"A\"]\x7d\x7b\"Case\":\"Const\",\"Fields\":[\"B\"]\x7d\n]\n" ∧
      written Stream.stdout (translateDeclarations Stream.stdout constPair).trace ≠
        "[\n\x7b\"Case\":\"Const\",\"Fields\":[\"A\"]\x7d,\n\x7b\"Case\":\"Const\",\"Fields\":[\"B\"]\x7d\n]\n" := by
  refine ⟨constPair_ok, ?_⟩
  simp [constPair, translateDeclarations, declarationsLoop, translateDeclaration, valueSpecs,
    valueNames, Outcome.andThen, fprint, skip, beforeItem, written]

/-- C3 fails at `*int` translated to a writer other than the standard output: the
writer receives the value without its closing bracket and brace, which go to the
standard output, so that the text on the writer is not the complete object. -/
theorem pointer_closing_written_to_stdout :
    (translateType (Stream.writer 0) pointerToInt).err = none ∧
      written (Stream.writer 0) (translateType (Stream.writer 0) pointerToInt).trace =
        "\x7b\"Case\":\"Star\",\"Fields\":[\x7b\"Case\":\"Ident\",\"Fields\":[\"int\"]\x7d" ∧
      written Stream.stdout (translateType (Stream.writer 0) pointerToInt).trace = "]\x7d" ∧
      written (Stream.writer 0) (translateType (Stream.writer 0) pointerToInt).trace ≠
        "\x7b\"Case\":\"Star\",\"Fields\":[\x7b\"Case\":\"Ident\",\"Fields\":[\"int\"]\x7d]\x7d" := by
  simp [pointerToInt, translateType, Outcome.andThen, fprint, printf, written]

/-- C4: in a parameter list, a result list, a struct body and an interface body, a
field group with names `n1..nk` (k >= 1) whose type translates successfully contributes
exactly the k entries `{"Name":"ni","Type":X}`, in the order of the names, `X` the
translation of the type, separated from each other and from what the groups before
wrote; the groups after continue behind them. -/
theorem field_group_one_entry_per_name (w : Stream) (names : List String) (T : Expr)
    (hk : names ≠ []) (hT : (translateType w T).err = none)
    (loop : Stream → List Field → Bool → Outcome × Bool)
    (hloop : loop = funcParams ∨ loop = funcResults ∨ loop = structFields ∨
      loop = interfaceMethods)
    (pre post : List Field) (first : Bool) (hpre : (loop w pre first).1.err = none) :
    fieldEntries w (Field.mk names T) =
        names.map (fun n => "\x7b\"Name\":\"" ++ n ++ "\",\"Type\":" ++ typeText w T ++ "\x7d") ∧
      primary w (loop w (pre ++ Field.mk names T :: post) first).1.trace =
        primary w (loop w pre first).1.trace ++
          separated (loop w pre first).2 (fieldEntries w (Field.mk names T)) ++
          primary w (loop w post false).1.trace := by
  refine ⟨rfl, ?_⟩
  obtain ⟨n1, n2, n3⟩ := translateNames_spec w T hT names (loop w pre first).2
  have hne : names.isEmpty = false := by
    cases names with
    | nil => exact absurd rfl hk
    | cons _ _ => rfl
  rw [hne, Bool.and_false] at n2
  have key : ∀ (a : Outcome × Bool),
      a = ((translateNames w names T (loop w pre first).2).1.andThen
          (loop w post (translateNames w names T (loop w pre first).2).2).1,
        (loop w post (translateNames w names T (loop w pre first).2).2).2) →
      (loop w (pre ++ Field.mk names T :: post) first).1 = (loop w pre first).1.andThen a.1 →
      primary w (loop w (pre ++ Field.mk names T :: post) first).1.trace =
        primary w (loop w pre first).1.trace ++
          separated (loop w pre first).2 (fieldEntries w (Field.mk names T)) ++
          primary w (loop w post false).1.trace := by
    intro a ha hcat
    rw [hcat, primary_andThen _ _ _ hpre, ha]
    show _ ++ primary w ((translateNames w names T (loop w pre first).2).1.andThen _).trace = _
    rw [primary_andThen _ _ _ n1, n3, n2, String.append_assoc]
    rfl
  rcases hloop with h | h | h | h <;> subst h
  · exact key _ (funcParams_cons w names T post _ hk)
      (funcParams_append w _ pre first hpre).1
  · exact key _ (funcResults_cons w names T post _ hk)
      (funcResults_append w _ pre first hpre).1
  · exact key _ (structFields_cons w names T post _ hk)
      (structFields_append w _ pre first hpre).1
  · exact key _ (interfaceMethods_cons w names T post _ hk)
      (interfaceMethods_append w _ pre first hpre).1

/-- C4 at the parameters `x, y int`: two entries, named x then y, both typed as the
identifier int. -/
theorem field_group_one_entry_per_name_witness :
    ["x", "y"] ≠ [] ∧ (translateType Stream.stdout (Expr.ident "int")).err = none ∧
      (funcParams = funcParams ∨ funcParams = funcResults ∨ funcParams = structFields ∨
        funcParams = interfaceMethods) ∧
      (funcParams Stream.stdout [] true).1.err = none ∧
      primary Stream.stdout (funcParams Stream.stdout [paramsXY] true).1.trace =
        "\x7b\"Name\":\"x\",\"Type\":\x7b\"Case\":\"Ident\",\"Fields\":[\"int\"]\x7d\x7d,\n\x7b\"Name\":\"y\",\"Type\":\x7b\"Case\":\"Ident\",\"Fields\":[\"int\"]\x7d\x7d" := by
  have hpre : (funcParams Stream.stdout [] true).1.err = none := by rw [funcParams_nil]; rfl
  refine ⟨by decide, translateType_ident_ok _ _, Or.inl rfl, hpre, ?_⟩
  have h := (field_group_one_entry_per_name Stream.stdout ["x", "y"] (Expr.ident "int")
    (by decide) (translateType_ident_ok _ _) funcParams (Or.inl rfl) [] [] true hpre).2
  simp only [List.nil_append, funcParams_nil, fieldEntries, Field.names, Field.type,
    typeText_ident, List.map, separated, fieldEntry, primary_skip] at h
  rw [paramsXY, h]
  decide

/-- C5: a struct type whose field groups all have a name and whose field types all
translate successfully is translated, successfully, to the Struct case with two fields:
the incomplete flag as `true` or `false`, then the list of the fields, one entry
`{"Name":n,"Type":X}` per name in declaration order. -/
theorem struct_flag_then_fields (w : Stream) (fields : List Field) (incomplete : Bool)
    (h : ∀ f ∈ fields, f.names ≠ [] ∧ (translateType w f.type).err = none) :
    (translateType w (Expr.structType fields incomplete)).err = none ∧
      primary w (translateType w (Expr.structType fields incomplete)).trace =
        "\x7b\"Case\":\"Struct\",\"Fields\":[" ++ (if incomplete then "true" else "false") ++
          ",[" ++
          separated true (fields.flatMap (fun f => f.names.map (fun n =>
            "\x7b\"Name\":\"" ++ n ++ "\",\"Type\":" ++ typeText w f.type ++ "\x7d"))) ++
          "]]\x7d" := by
  obtain ⟨h1, _, h3⟩ := structFields_text w fields true h
  have e : (fun f : Field => f.names.map (fun n =>
      "\x7b\"Name\":\"" ++ n ++ "\",\"Type\":" ++ typeText w f.type ++ "\x7d")) =
      fieldEntries w := rfl
  rw [translateType, e]
  refine ⟨?_, ?_⟩
  · simp [andThen_err_none, h1]
  · rw [primary_andThen _ _ _ (fprint_err _ _), primary_andThen _ _ _ h1, h3]
    simp only [primary_fprint, primary_printf, fmtBool, String.append_assoc]

/-- C5 at `struct { name, surname string; age int }`, not incomplete. -/
theorem struct_flag_then_fields_witness :
    (∀ f ∈ [Field.mk ["name", "surname"] (Expr.ident "string"),
        Field.mk ["age"] (Expr.ident "int")],
      f.names ≠ [] ∧ (translateType Stream.stdout f.type).err = none) ∧
    primary Stream.stdout (translateType Stream.stdout personStruct).trace =
      "\x7b\"Case\":\"Struct\",\"Fields\":[false,[\x7b\"Name\":\"name\",\"Type\":\x7b\"Case\":\"Ident\",\"Fields\":[\"string\"]\x7d\x7d,\n\x7b\"Name\":\"surname\",\"Type\":\x7b\"Case\":\"Ident\",\"Fields\":[\"string\"]\x7d\x7d,\n\x7b\"Name\":\"age\",\"Type\":\x7b\"Case\":\"Ident\",\"Fields\":[\"int\"]\x7d\x7d]]\x7d" := by
  have hf : ∀ f ∈ [Field.mk ["name", "surname"] (Expr.ident "string"),
      Field.mk ["age"] (Expr.ident "int")],
      f.names ≠ [] ∧ (translateType Stream.stdout f.type).err = none := by
    intro f hf
    simp only [List.mem_cons, List.mem_singleton, List.not_mem_nil, or_false] at hf
    rcases hf with rfl | rfl
    · exact ⟨by decide, translateType_ident_ok _ _⟩
    · exact ⟨by decide, translateType_ident_ok _ _⟩
  refine ⟨hf, ?_⟩
  have h := (struct_flag_then_fields Stream.stdout _ false hf).2
  simp only [List.flatMap_cons, List.flatMap_nil, Field.names, Field.type, typeText_ident,
    List.map, List.append_nil, List.cons_append, List.nil_append, separated] at h
  rw [personStruct, h]
  simp

/-- C6: the Results list of a signature that translates successfully is built group by
group in order: a group with names gives one entry `{"Name":n,"Type":X}` per name, a
group without names gives the one entry `{"Type":X}`, an absent result list gives the
empty list. -/
theorem results_group_by_group (w : Stream) (hw : w ≠ Stream.stderr)
    (typeParams : Option (List Field)) (params : List Field)
    (results : Option (List Field))
    (h : (translateFuncType w (FuncType.mk typeParams params results)).err = none) :
    primary w (translateFuncType w (FuncType.mk typeParams params results)).trace =
      "\x7b\"Params\":[" ++ primary w (funcParams w params true).1.trace ++
        "],\"Results\":[" ++
        separated true ((results.getD []).flatMap (fun g =>
          if g.names = [] then ["\x7b\"Type\":" ++ typeText w g.type ++ "\x7d"]
          else g.names.map (fun n =>
            "\x7b\"Name\":\"" ++ n ++ "\",\"Type\":" ++ typeText w g.type ++ "\x7d"))) ++
        "]\x7d" := by
  have e : (fun g : Field =>
      if g.names = [] then ["\x7b\"Type\":" ++ typeText w g.type ++ "\x7d"]
      else g.names.map (fun n =>
        "\x7b\"Name\":\"" ++ n ++ "\",\"Type\":" ++ typeText w g.type ++ "\x7d")) =
      resultEntries w := rfl
  rw [translateFuncType.eq_def, e] at *
  simp only [andThen_err_none, diag_err, fprint_err, true_and, and_true] at h
  have hr : primary w (match results with
      | some rs => (funcResults w rs true).1
      | none => skip).trace =
      separated true ((results.getD []).flatMap (resultEntries w)) := by
    cases results with
    | none => rfl
    | some rs => exact funcResults_text w rs true h.2
  rw [primary_andThen _ _ _ (diag_err _ _), primary_andThen _ _ _ (fprint_err _ _),
    primary_andThen _ _ _ h.1, primary_andThen _ _ _ (fprint_err _ _),
    primary_andThen _ _ _ h.2, hr, primary_diag w hw]
  simp only [primary_fprint, String.append_assoc, String.empty_append]

/-- C6 at `func(x, y int) (result int, ok bool)`: the results are the fields result,
typed int, and ok, typed bool. -/
theorem results_group_by_group_witness :
    Stream.stdout ≠ Stream.stderr ∧
      (translateFuncType Stream.stdout safeDivideType).err = none ∧
      primary Stream.stdout (translateFuncType Stream.stdout safeDivideType).trace =
        "\x7b\"Params\":[\x7b\"Name\":\"x\",\"Type\":\x7b\"Case\":\"Ident\",\"Fields\":[\"int\"]\x7d\x7d,\n\x7b\"Name\":\"y\",\"Type\":\x7b\"Case\":\"Ident\",\"Fields\":[\"int\"]\x7d\x7d],\"Results\":[\x7b\"Name\":\"result\",\"Type\":\x7b\"Case\":\"Ident\",\"Fields\":[\"int\"]\x7d\x7d,\n\x7b\"Name\":\"ok\",\"Type\":\x7b\"Case\":\"Ident\",\"Fields\":[\"bool\"]\x7d\x7d]\x7d" := by
  refine ⟨by decide, safeDivideType_ok, ?_⟩
  have h := results_group_by_group Stream.stdout (by decide) none [paramsXY]
    (some [Field.mk ["result"] (Expr.ident "int"), Field.mk ["ok"] (Expr.ident "bool")])
    safeDivideType_ok
  simp only [Option.getD_some, List.flatMap_cons, List.flatMap_nil, Field.names, Field.type,
    typeText_ident, List.map, List.append_nil, List.cons_append, List.nil_append,
    separated] at h
  rw [safeDivideType, h, funcParams_paramsXY]
  simp [String.append_assoc]

/-- C7: a function declaration named `f` whose signature translates to the text `S`
is emitted, after the separator if it is not the first element, as
`{"Case":"Func","Fields":["f",null,S]}` when the receiver is absent and with the field
`{"Name":"r","Type":X}` in place of `null` when the receiver is one group with the one
name `r` whose type translates to `X`; `S` is `{"Params":[],"Results":[]}` for a
signature without parameters and results. -/
theorem func_declaration_element (w : Stream) (hw : w ≠ Stream.stderr) (name : String)
    (type : FuncType) (first : Bool) (hS : (translateFuncType w type).err = none) :
    ((translateDeclaration w (Decl.funcDecl none name type) first).1.err = none ∧
      (translateDeclaration w (Decl.funcDecl none name type) first).2 = false ∧
      primary w (translateDeclaration w (Decl.funcDecl none name type) first).1.trace =
        (if first then "" else ",\n") ++
          ("\x7b\"Case\":\"Func\",\"Fields\":[\"" ++ name ++ "\",null," ++
            primary w (translateFuncType w type).trace ++ "]\x7d")) ∧
    (∀ (r : String) (R : Expr), (translateType w R).err = none →
      (translateDeclaration w (Decl.funcDecl (some [Field.mk [r] R]) name type) first).1.err =
          none ∧
        (translateDeclaration w (Decl.funcDecl (some [Field.mk [r] R]) name type) first).2 =
          false ∧
        primary w
            (translateDeclaration w (Decl.funcDecl (some [Field.mk [r] R]) name type)
              first).1.trace =
          (if first then "" else ",\n") ++
            ("\x7b\"Case\":\"Func\",\"Fields\":[\"" ++ name ++ "\"," ++
              ("\x7b\"Name\":\"" ++ r ++ "\",\"Type\":" ++ typeText w R ++ "\x7d") ++ "," ++
              primary w (translateFuncType w type).trace ++ "]\x7d")) ∧
    (∀ typeParams : Option (List Field),
      primary w (translateFuncType w (FuncType.mk typeParams [] none)).trace =
        "\x7b\"Params\":[],\"Results\":[]\x7d") ∧
    primary w (translateDeclarations w [Decl.funcDecl none name type]).trace =
      "[\n" ++ ("\x7b\"Case\":\"Func\",\"Fields\":[\"" ++ name ++ "\",null," ++
        primary w (translateFuncType w type).trace ++ "]\x7d") ++ "\n]\n" := by
  have ok0 : ∀ b, (translateDeclaration w (Decl.funcDecl none name type) b).1.err = none := by
    intro b
    simp [translateDeclaration, translateReceiver, andThen_err_none, hS]
  have tx0 : ∀ b,
      primary w (translateDeclaration w (Decl.funcDecl none name type) b).1.trace =
        (if b then "" else ",\n") ++
          ("\x7b\"Case\":\"Func\",\"Fields\":[\"" ++ name ++ "\",null," ++
            primary w (translateFuncType w type).trace ++ "]\x7d") := by
    intro b
    have lit : ∀ z : String, "\"," ++ ("null" ++ ("," ++ z)) = "\",null," ++ z := by
      intro z
      rw [← String.append_assoc, ← String.append_assoc]
      rfl
    rw [funcDecl_text w none name type b (ok0 b)]
    simp only [separated, funcElement, receiverText, String.append_empty, String.append_assoc,
      lit]
  refine ⟨⟨ok0 first, rfl, tx0 first⟩, ?_, ?_, ?_⟩
  · intro r R hR
    have ok1 : (translateDeclaration w (Decl.funcDecl (some [Field.mk [r] R]) name type)
        first).1.err = none := by
      simp [translateDeclaration, translateReceiver, andThen_err_none, hS, translateField_err,
        hR]
    refine ⟨ok1, rfl, ?_⟩
    rw [funcDecl_text w _ name type first ok1]
    simp only [separated, funcElement, receiverText, fieldEntry, String.append_empty]
  · intro typeParams
    rw [translateFuncType.eq_def]
    simp only []
    rw [funcParams_nil, primary_andThen _ _ _ (diag_err _ _),
      primary_andThen _ _ _ (fprint_err _ _), primary_andThen _ _ _ skip_err,
      primary_andThen _ _ _ (fprint_err _ _), primary_andThen _ _ _ skip_err,
      primary_diag w hw]
    simp
  · simp only [translateDeclarations, declarationsLoop]
    rw [primary_andThen _ _ _ (fprint_err _ _), primary_andThen, primary_andThen _ _ _ (ok0 true),
      tx0 true]
    · simp [String.append_assoc]
    · rw [andThen_err_none]; exact ⟨ok0 true, rfl⟩

/-- C7 at `func Dummy() {}`. -/
theorem func_declaration_element_witness :
    Stream.stdout ≠ Stream.stderr ∧
      (translateFuncType Stream.stdout dummyType).err = none ∧
      primary Stream.stdout
          (translateDeclarations Stream.stdout [Decl.funcDecl none "Dummy" dummyType]).trace =
        "[\n\x7b\"Case\":\"Func\",\"Fields\":[\"Dummy\",null,\x7b\"Params\":[],\"Results\":[]\x7d]\x7d\n]\n" := by
  refine ⟨by decide, dummyType_ok, ?_⟩
  have h := func_declaration_element Stream.stdout (by decide) "Dummy" dummyType true
    dummyType_ok
  rw [h.2.2.2, dummyType, h.2.2.1 none]
  simp

/-- C8: a type group whose underlying types all translate successfully is translated,
successfully, to one element `{"Case":"Type","Fields":["name",X]}` per spec, in spec
order, `X` the translation of the spec's underlying type, each after a separator except
the very first element of the output; a group with no specs writes nothing. -/
theorem type_group_one_element_per_spec (w : Stream) (hw : w ≠ Stream.stderr)
    (specs : List (String × Option (List Field) × Expr)) (first : Bool)
    (h : ∀ s ∈ specs, (translateType w s.2.2).err = none) :
    (translateDeclaration w
        (Decl.genDecl Token.TYPE (specs.map (fun s => Spec.typeSpec s.1 s.2.1 s.2.2)))
        first).1.err = none ∧
      (translateDeclaration w
        (Decl.genDecl Token.TYPE (specs.map (fun s => Spec.typeSpec s.1 s.2.1 s.2.2)))
        first).2 = (first && specs.isEmpty) ∧
      primary w (translateDeclaration w
        (Decl.genDecl Token.TYPE (specs.map (fun s => Spec.typeSpec s.1 s.2.1 s.2.2)))
        first).1.trace =
        separated first (specs.map (fun s =>
          "\x7b\"Case\":\"Type\",\"Fields\":[\"" ++ s.1 ++ "\"," ++ typeText w s.2.2 ++ "]\x7d")) ∧
      (translateDeclaration w (Decl.genDecl Token.TYPE []) first).1.trace = [] := by
  obtain ⟨h1, h2⟩ := typeSpecs_ok w specs first h
  refine ⟨h1, h2, ?_, rfl⟩
  show primary w (typeSpecs w _ first).1.trace = _
  rw [typeSpecs_text w hw _ first h1, typeElements_map]
  rfl

/-- C8 at the group `type ( A int; B[T any] *A )`. -/
theorem type_group_one_element_per_spec_witness :
    Stream.stdout ≠ Stream.stderr ∧
      (∀ s ∈ typePair, (translateType Stream.stdout s.2.2).err = none) ∧
      primary Stream.stdout (translateDeclaration Stream.stdout
        (Decl.genDecl Token.TYPE (typePair.map (fun s => Spec.typeSpec s.1 s.2.1 s.2.2)))
        true).1.trace =
        "\x7b\"Case\":\"Type\",\"Fields\":[\"A\",\x7b\"Case\":\"Ident\",\"Fields\":[\"int\"]\x7d]\x7d,\n\x7b\"Case\":\"Type\",\"Fields\":[\"B\",\x7b\"Case\":\"Star\",\"Fields\":[\x7b\"Case\":\"Ident\",\"Fields\":[\"A\"]\x7d]\x7d]\x7d" := by
  have hs : ∀ s ∈ typePair, (translateType Stream.stdout s.2.2).err = none := by
    intro s hs
    simp only [typePair, List.mem_cons, List.mem_singleton, List.not_mem_nil, or_false] at hs
    rcases hs with rfl | rfl
    · exact translateType_ident_ok _ _
    · show (translateType Stream.stdout (Expr.starExpr (Expr.ident "A"))).err = none
      rw [translateType]
      simp [andThen_err_none, translateType_ident_ok]
  refine ⟨by decide, hs, ?_⟩
  rw [(type_group_one_element_per_spec Stream.stdout (by decide) typePair true hs).2.2.1]
  simp [typePair, separated, typeText_ident, typeText_star_ident, String.append_assoc]

/-- C9: a const group (a var group) is translated, successfully, to the elements
`{"Case":"Const","Fields":["n"]}` (`"Var"`), one per declared name, in spec order then
name order, with nothing but separators around them; and two groups whose specs declare
the same names give the same output and outcome of the whole translation, whatever
types and values their specs carry. -/
theorem value_group_names_only (w : Stream) (first : Bool) (specs1 specs2 : List Spec)
    (h1 : ∀ s ∈ specs1, s.isValueSpec = true) (h2 : ∀ s ∈ specs2, s.isValueSpec = true)
    (hn : specs1.map Spec.valueNames = specs2.map Spec.valueNames) :
    ((translateDeclaration w (Decl.genDecl Token.CONST specs1) first).1.err = none ∧
      Laid ((specs1.flatMap Spec.valueNames).map (fun n =>
          "\x7b\"Case\":\"Const\",\"Fields\":[\"" ++ n ++ "\"]\x7d"))
        (primary w (translateDeclaration w (Decl.genDecl Token.CONST specs1) first).1.trace)) ∧
    ((translateDeclaration w (Decl.genDecl Token.VAR specs1) first).1.err = none ∧
      Laid ((specs1.flatMap Spec.valueNames).map (fun n =>
          "\x7b\"Case\":\"Var\",\"Fields\":[\"" ++ n ++ "\"]\x7d"))
        (primary w (translateDeclaration w (Decl.genDecl Token.VAR specs1) first).1.trace)) ∧
    (∀ pre post : List Decl,
      translateDeclarations w (pre ++ Decl.genDecl Token.CONST specs1 :: post) =
        translateDeclarations w (pre ++ Decl.genDecl Token.CONST specs2 :: post)) ∧
    (∀ pre post : List Decl,
      translateDeclarations w (pre ++ Decl.genDecl Token.VAR specs1 :: post) =
        translateDeclarations w (pre ++ Decl.genDecl Token.VAR specs2 :: post)) := by
  have okc := valueSpecs_ok w "Const" specs1 first h1
  have okv := valueSpecs_ok w "Var" specs1 first h1
  have ec : (fun n => "\x7b\"Case\":\"Const\",\"Fields\":[\"" ++ n ++ "\"]\x7d") =
      valueElement "Const" := rfl
  have ev : (fun n => "\x7b\"Case\":\"Var\",\"Fields\":[\"" ++ n ++ "\"]\x7d") =
      valueElement "Var" := rfl
  rw [ec, ev]
  refine ⟨⟨okc, valueSpecs_laid w "Const" specs1 first okc⟩,
    ⟨okv, valueSpecs_laid w "Var" specs1 first okv⟩, ?_, ?_⟩
  · intro pre post
    simp only [translateDeclarations]
    rw [declarationsLoop_congr w (Decl.genDecl Token.CONST specs1)
      (Decl.genDecl Token.CONST specs2)
      (fun b => valueSpecs_congr w "Const" specs1 specs2 b h1 h2 hn)]
  · intro pre post
    simp only [translateDeclarations]
    rw [declarationsLoop_congr w (Decl.genDecl Token.VAR specs1)
      (Decl.genDecl Token.VAR specs2)
      (fun b => valueSpecs_congr w "Var" specs1 specs2 b h1 h2 hn)]

/-- C9 at `const A, B = 1, 2` against `const A, B string = "x", "y"`. -/
theorem value_group_names_only_witness :
    (∀ s ∈ [constSpecUntyped], s.isValueSpec = true) ∧
      (∀ s ∈ [constSpecTyped], s.isValueSpec = true) ∧
      [constSpecUntyped].map Spec.valueNames = [constSpecTyped].map Spec.valueNames ∧
      Laid ["\x7b\"Case\":\"Const\",\"Fields\":[\"A\"]\x7d", "\x7b\"Case\":\"Const\",\"Fields\":[\"B\"]\x7d"]
        (primary Stream.stdout (translateDeclaration Stream.stdout
          (Decl.genDecl Token.CONST [constSpecUntyped]) true).1.trace) ∧
      translateDeclarations Stream.stdout [Decl.genDecl Token.CONST [constSpecUntyped]] =
        translateDeclarations Stream.stdout [Decl.genDecl Token.CONST [constSpecTyped]] := by
  have h1 : ∀ s ∈ [constSpecUntyped], s.isValueSpec = true := by
    intro s hs
    rw [List.mem_singleton] at hs
    subst hs
    rfl
  have h2 : ∀ s ∈ [constSpecTyped], s.isValueSpec = true := by
    intro s hs
    rw [List.mem_singleton] at hs
    subst hs
    rfl
  have h := value_group_names_only Stream.stdout true [constSpecUntyped] [constSpecTyped]
    h1 h2 rfl
  exact ⟨h1, h2, rfl, h.1.2, h.2.2.1 [] []⟩

/-- C10: an import group, whatever specs it contains, is translated to the one write
of the element `{"Case":"Import"}`, after the separator if it is not the first
element; the element has no `Fields` key. -/
theorem import_group_one_element (w : Stream) (specs : List Spec) (first : Bool) :
    translateDeclaration w (Decl.genDecl Token.IMPORT specs) first =
        (⟨(if first then [] else [⟨w, ",\n"⟩]) ++ [⟨w, "\x7b\"Case\":\"Import\"\x7d"⟩], none⟩,
          false) ∧
      primary w (translateDeclarations w [Decl.genDecl Token.IMPORT specs]).trace =
        "[\n\x7b\"Case\":\"Import\"\x7d\n]\n" := by
  constructor
  · cases first <;> rfl
  · simp [translateDeclarations, declarationsLoop, translateDeclaration, beforeItem,
      Outcome.andThen, fprint, skip, primary]

/-! ## Aborts: where they come from -/

theorem andThen_err_some (a b : Outcome) (e : Err) :
    (a.andThen b).err = some e ↔ a.err = some e ∨ (a.err = none ∧ b.err = some e) := by
  unfold Outcome.andThen
  cases h : a.err <;> simp [h]

theorem andThen_eq_of_err (a b : Outcome) (e : Err) (h : a.err = some e) :
    (a.andThen b).err = some e := by
  rw [andThen_of_err a b e h, h]

theorem translateNames_err (w : Stream) (names : List String) (t : Expr) (first : Bool)
    (hn : names ≠ []) :
    (translateNames w names t first).1.err = (translateType w t).err := by
  cases h : (translateType w t).err with
  | none => exact (translateNames_spec w t h names first).1
  | some e =>
    cases names with
    | nil => exact absurd rfl hn
    | cons n rest =>
      rw [translateNames]
      apply andThen_eq_of_err
      rw [andThen_err _ _ (beforeItem_err _ _), translateField_err, h]

theorem structFields_nameless (w : Stream) (t : Expr) (rest : List Field) (first : Bool) :
    structFields w (Field.mk [] t :: rest) first = (abort Err.namelessField, first) := by
  rw [structFields]
  simp

theorem interfaceMethods_nameless (w : Stream) (t : Expr) (rest : List Field)
    (first : Bool) :
    interfaceMethods w (Field.mk [] t :: rest) first = (abort Err.namelessMethod, first) := by
  rw [interfaceMethods]
  simp

theorem funcParams_nameless (w : Stream) (t : Expr) (rest : List Field) (first : Bool) :
    funcParams w (Field.mk [] t :: rest) first = (abort Err.parameterWithoutName, first) := by
  rw [funcParams]
  simp

theorem translateFuncType_err_of_params (w : Stream) (typeParams : Option (List Field))
    (params : List Field) (results : Option (List Field)) (e : Err)
    (h : (funcParams w params true).1.err = some e) :
    (translateFuncType w (FuncType.mk typeParams params results)).err = some e := by
  rw [translateFuncType.eq_def]
  simp only []
  rw [andThen_err _ _ (diag_err _ _), andThen_err _ _ (fprint_err _ _)]
  exact andThen_eq_of_err _ _ e h

theorem funcDecl_err_of_signature (w : Stream) (recv : Option (List Field)) (name : String)
    (type : FuncType) (first : Bool) (hr : (translateReceiver w name recv).err = none) :
    (translateDeclaration w (Decl.funcDecl recv name type) first).1.err =
      (translateFuncType w type).err := by
  simp only [translateDeclaration]
  rw [andThen_err _ _ (beforeItem_err _ _), andThen_err _ _ (fprint_err _ _),
    andThen_err _ _ hr, andThen_err _ _ (fprint_err _ _)]
  cases h : (translateFuncType w type).err with
  | none => rw [andThen_err _ _ h]; rfl
  | some e => exact andThen_eq_of_err _ _ e h

/-! ## The claims on arrays and on aborts -/

/-- C11: for an array or slice type whose element type translates successfully, the
first field of the Array case is `null` when the length is absent and the literal's
source text, copied as it is, when the length is a literal, the second field being the
translation of the element type; when the length is any other expression the
translation aborts at the assertion that the length is a literal. -/
theorem array_length_null_or_literal (w : Stream) (elt : Expr)
    (hE : (translateType w elt).err = none) :
    ((translateType w (Expr.arrayType none elt)).err = none ∧
      typeText w (Expr.arrayType none elt) =
        "\x7b\"Case\":\"Array\",\"Fields\":[" ++ "null" ++ "," ++ typeText w elt ++ "]\x7d") ∧
    (∀ (kind : Token) (s : String),
      (translateType w (Expr.arrayType (some (Expr.basicLit kind s)) elt)).err = none ∧
      typeText w (Expr.arrayType (some (Expr.basicLit kind s)) elt) =
        "\x7b\"Case\":\"Array\",\"Fields\":[" ++ s ++ "," ++ typeText w elt ++ "]\x7d") ∧
    (∀ len : Expr, (∀ (kind : Token) (s : String), len ≠ Expr.basicLit kind s) →
      (translateType w (Expr.arrayType (some len) elt)).err =
        some Err.arrayLengthNotBasicLit) := by
  have lit : ∀ z : String, "null" ++ ("," ++ z) = "null," ++ z := by
    intro z
    rw [← String.append_assoc]
    rfl
  refine ⟨⟨?_, ?_⟩, fun kind s => ⟨?_, ?_⟩, ?_⟩
  · rw [translateType]
    simp [andThen_err_none, translateArrayLen, hE]
  · rw [typeText, translateType, primary_andThen _ _ _ (fprint_err _ _),
      primary_andThen _ _ _ (by rfl), primary_andThen _ _ _ hE]
    simp only [translateArrayLen, primary_fprint, primary_printf, typeText,
      String.append_assoc, lit]
  · rw [translateType]
    simp [andThen_err_none, translateArrayLen, hE]
  · rw [typeText, translateType, primary_andThen _ _ _ (fprint_err _ _),
      primary_andThen _ _ _ (by rfl), primary_andThen _ _ _ hE]
    simp only [translateArrayLen, primary_fprint, primary_printf, typeText,
      String.append_assoc]
  · intro len hlen
    have hl : translateArrayLen w (some len) = abort Err.arrayLengthNotBasicLit := by
      cases len <;> first | rfl | exact absurd rfl (hlen _ _)
    rw [translateType, andThen_err _ _ (fprint_err _ _), hl]
    rfl

/-- C11 at `[4]int` and at `[n]int`. -/
theorem array_length_null_or_literal_witness :
    (translateType Stream.stdout (Expr.ident "int")).err = none ∧
      typeText Stream.stdout arrayOfFourInt =
        "\x7b\"Case\":\"Array\",\"Fields\":[4,\x7b\"Case\":\"Ident\",\"Fields\":[\"int\"]\x7d]\x7d" ∧
      (∀ (kind : Token) (s : String), Expr.ident "n" ≠ Expr.basicLit kind s) ∧
      (translateType Stream.stdout
        (Expr.arrayType (some (Expr.ident "n")) (Expr.ident "int"))).err =
        some Err.arrayLengthNotBasicLit := by
  have h := array_length_null_or_literal Stream.stdout (Expr.ident "int")
    (translateType_ident_ok _ _)
  have hn : ∀ (kind : Token) (s : String), Expr.ident "n" ≠ Expr.basicLit kind s := by
    intro kind s hc
    cases hc
  refine ⟨translateType_ident_ok _ _, ?_, hn, h.2.2 _ hn⟩
  rw [arrayOfFourInt, (h.2.1 Token.INT "4").2, typeText_ident]
  simp [String.append_assoc]

/-- C13: a signature with a parameter group without names, the parameter groups
before it translated, aborts with the unnamed-parameter abort, whatever the type
parameters, the later parameters and the results are, as a signature, as a function
type and in a function declaration whose receiver is translated; a result group
without names is translated as an unnamed result and aborts only when, and as, the
translation of its type does. -/
theorem unnamed_parameter_rejected (w : Stream) (typeParams : Option (List Field))
    (pre post : List Field) (T : Expr) (results : Option (List Field))
    (hpre : (funcParams w pre true).1.err = none) :
    (translateFuncType w
        (FuncType.mk typeParams (pre ++ Field.mk [] T :: post) results)).err =
      some Err.parameterWithoutName ∧
    (translateType w (Expr.funcType
        (FuncType.mk typeParams (pre ++ Field.mk [] T :: post) results))).err =
      some Err.parameterWithoutName ∧
    (∀ (recv : Option (List Field)) (name : String) (first : Bool),
      (translateReceiver w name recv).err = none →
      (translateDeclaration w (Decl.funcDecl recv name
        (FuncType.mk typeParams (pre ++ Field.mk [] T :: post) results)) first).1.err =
        some Err.parameterWithoutName) ∧
    (∀ (rpre rpost : List Field) (R : Expr) (first : Bool),
      (funcResults w rpre first).1.err = none →
      ((translateType w R).err = none →
        (funcResults w (rpre ++ Field.mk [] R :: rpost) first).1.err =
          (funcResults w rpost false).1.err) ∧
      (∀ e : Err, (translateType w R).err = some e →
        (funcResults w (rpre ++ Field.mk [] R :: rpost) first).1.err = some e)) := by
  have hp : (funcParams w (pre ++ Field.mk [] T :: post) true).1.err =
      some Err.parameterWithoutName := by
    rw [(funcParams_append w _ pre true hpre).1, andThen_err _ _ hpre, funcParams_nameless]
    rfl
  have hs := translateFuncType_err_of_params w typeParams _ results _ hp
  refine ⟨hs, ?_, ?_, ?_⟩
  · rw [translateType]
    exact hs
  · intro recv name first hr
    rw [funcDecl_err_of_signature w recv name _ first hr]
    exact hs
  · intro rpre rpost R first hr
    have hcat : (funcResults w (rpre ++ Field.mk [] R :: rpost) first).1.err =
        (((beforeItem w (funcResults w rpre first).2).andThen
          (translateFieldWithoutName w R)).andThen (funcResults w rpost false).1).err := by
      rw [(funcResults_append w _ rpre first hr).1, andThen_err _ _ hr,
        funcResults_cons_nameless]
    refine ⟨fun hR => ?_, fun e hR => ?_⟩
    · rw [hcat, andThen_err]
      rw [andThen_err _ _ (beforeItem_err _ _), translateFieldWithoutName_err, hR]
    · rw [hcat]
      apply andThen_eq_of_err
      rw [andThen_err _ _ (beforeItem_err _ _), translateFieldWithoutName_err, hR]

/-- C13 at the signature built by hand whose first parameter group, of type `int`, has
no name and whose second is `s string`, as a signature and as the signature of a
declaration `F` without receiver; and at the unnamed result `error` of `func() error`,
which is translated. -/
theorem unnamed_parameter_rejected_witness :
    (funcParams Stream.stdout [] true).1.err = none ∧
      (translateFuncType Stream.stdout unnamedParamType).err =
        some Err.parameterWithoutName ∧
      (translateReceiver Stream.stdout "F" none).err = none ∧
      (translateDeclaration Stream.stdout (Decl.funcDecl none "F" unnamedParamType)
        true).1.err = some Err.parameterWithoutName ∧
      (funcResults Stream.stdout [] true).1.err = none ∧
      (translateType Stream.stdout (Expr.ident "error")).err = none ∧
      (funcResults Stream.stdout [Field.mk [] (Expr.ident "error")] true).1.err =
        (funcResults Stream.stdout [] false).1.err := by
  have hp : (funcParams Stream.stdout [] true).1.err = none := by rw [funcParams_nil]; rfl
  have hr : (funcResults Stream.stdout [] true).1.err = none := by rw [funcResults]; rfl
  have h := unnamed_parameter_rejected Stream.stdout none []
    [Field.mk ["s"] (Expr.ident "string")] (Expr.ident "int")
    (some [Field.mk [] (Expr.ident "error")]) hp
  exact ⟨hp, h.1, rfl, h.2.2.1 none "F" true rfl, hr, translateType_ident_ok _ _,
    (h.2.2.2 [] [] (Expr.ident "error") true hr).1 (translateType_ident_ok _ _)⟩

theorem structFields_nil (w : Stream) (first : Bool) :
    structFields w [] first = (skip, first) := by
  rw [structFields]

theorem interfaceMethods_nil (w : Stream) (first : Bool) :
    interfaceMethods w [] first = (skip, first) := by
  rw [interfaceMethods]

/-- C14: a struct type with a field group without names, the groups before it
translated, aborts with the nameless-field abort, and an interface type with a method
group without names (an embedded interface, a constraint element), the groups before it
translated, with the nameless-method abort; the two aborts, the unnamed-parameter abort
and the receiver abort are four different aborts with four different messages. -/
theorem nameless_group_rejected (w : Stream) (pre post : List Field) (T : Expr)
    (incomplete : Bool) (hs : (structFields w pre true).1.err = none)
    (hi : (interfaceMethods w pre true).1.err = none) :
    (translateType w (Expr.structType (pre ++ Field.mk [] T :: post) incomplete)).err =
      some Err.namelessField ∧
    (translateType w (Expr.interfaceType (pre ++ Field.mk [] T :: post) incomplete)).err =
      some Err.namelessMethod ∧
    (∀ f : String,
      [Err.namelessField, Err.namelessMethod, Err.parameterWithoutName,
        Err.unexpectedNumberOfReceivers f].Nodup ∧
      [Err.namelessField.logFormat, Err.namelessMethod.logFormat,
        Err.parameterWithoutName.logFormat,
        (Err.unexpectedNumberOfReceivers f).logFormat].Nodup) := by
  refine ⟨?_, ?_, fun f => ⟨?_, ?_⟩⟩
  · rw [translateType, andThen_err _ _ (fprint_err _ _)]
    apply andThen_eq_of_err
    rw [(structFields_append w _ pre true hs).1, andThen_err _ _ hs, structFields_nameless]
    rfl
  · rw [translateType, andThen_err _ _ (fprint_err _ _)]
    apply andThen_eq_of_err
    rw [(interfaceMethods_append w _ pre true hi).1, andThen_err _ _ hi,
      interfaceMethods_nameless]
    rfl
  · simp
  · simp [Err.logFormat]

/-- C14 at `struct { sync.Mutex; n int }` and `interface { io.Reader; Close() error }`. -/
theorem nameless_group_rejected_witness :
    (structFields Stream.stdout [] true).1.err = none ∧
      (interfaceMethods Stream.stdout [] true).1.err = none ∧
      (translateType Stream.stdout embeddingStruct).err = some Err.namelessField ∧
      (translateType Stream.stdout embeddingInterface).err = some Err.namelessMethod :=
  ⟨by rw [structFields_nil]; rfl, by rw [interfaceMethods_nil]; rfl,
    (nameless_group_rejected Stream.stdout [] [Field.mk ["n"] (Expr.ident "int")]
      (Expr.selectorExpr (Expr.ident "sync") "Mutex") false
      (by rw [structFields_nil]; rfl) (by rw [interfaceMethods_nil]; rfl)).1,
    (nameless_group_rejected Stream.stdout []
      [Field.mk ["Close"] (Expr.funcType
        (FuncType.mk none [] (some [Field.mk [] (Expr.ident "error")])))]
      (Expr.selectorExpr (Expr.ident "io") "Reader") false
      (by rw [structFields_nil]; rfl) (by rw [interfaceMethods_nil]; rfl)).2.1⟩

/-- C15 fails at the unary node `-x` and the binary node `x + y`: they abort with the
unknown-operator aborts, which are not the unsupported-operator aborts of `~x` and
`x | y` and have other messages. -/
theorem other_operators_abort_as_unknown :
    (translateType Stream.stdout
        (Expr.unaryExpr (Token.other "-") (Expr.ident "x"))).err =
      some Err.unknownUnaryOperator ∧
    (translateType Stream.stdout
        (Expr.unaryExpr Token.TILDE (Expr.ident "x"))).err =
      some Err.unsupportedUnaryOperator ∧
    Err.unknownUnaryOperator.logFormat ≠ Err.unsupportedUnaryOperator.logFormat ∧
    (translateType Stream.stdout
        (Expr.binaryExpr (Expr.ident "x") (Token.other "+") (Expr.ident "y"))).err =
      some Err.unknownBinaryOperator ∧
    (translateType Stream.stdout
        (Expr.binaryExpr (Expr.ident "x") Token.OR (Expr.ident "y"))).err =
      some Err.unsupportedBinaryOperator ∧
    Err.unknownBinaryOperator.logFormat ≠ Err.unsupportedBinaryOperator.logFormat := by
  refine ⟨?_, ?_, by simp [Err.logFormat], ?_, ?_, by simp [Err.logFormat]⟩ <;>
    rw [translateType] <;> simp [abort]

/-- C15 as amended: every unary node aborts, with the unsupported-unary-operator abort
when its operator is `~` and with the unknown-unary-operator abort otherwise; every
binary node aborts, with the unsupported-binary-operator abort when its operator is `|`
and with the unknown-binary-operator abort otherwise; the operands are not translated
and nothing is written; a node of any other kind aborts with the unknown-type abort. -/
theorem operator_nodes_abort (w : Stream) (op : Token) (x y : Expr) :
    translateType w (Expr.unaryExpr op x) =
        abort (if op = Token.TILDE then Err.unsupportedUnaryOperator
          else Err.unknownUnaryOperator) ∧
      translateType w (Expr.binaryExpr x op y) =
        abort (if op = Token.OR then Err.unsupportedBinaryOperator
          else Err.unknownBinaryOperator) ∧
      (∀ typeName : String,
        translateType w (Expr.other typeName) = abort (Err.unknownType typeName)) ∧
      (∀ (kind : Token) (value : String),
        translateType w (Expr.basicLit kind value) =
          abort (Err.unknownType "*ast.BasicLit")) ∧
      (∀ e : Err, (abort e).trace = [] ∧ (abort e).err = some e) := by
  refine ⟨?_, ?_, fun n => ?_, fun k v => ?_, fun e => ⟨rfl, rfl⟩⟩
  · rw [translateType]
    split <;> rfl
  · rw [translateType]
    split <;> rfl
  · rw [translateType]
  · rw [translateType]

/-! ## Every type expression; the loops that reject nameless groups -/

mutual
theorem TypeCases.all {P : Expr → Prop} (c : TypeCases P) : ∀ t : Expr, P t
  | .ident name => c.ident name
  | .selectorExpr x sel => c.selectorExpr x sel (TypeCases.all c x)
  | .starExpr x => c.starExpr x (TypeCases.all c x)
  | .funcType (.mk typeParams params none) =>
    c.funcType typeParams params none (TypeCases.fields c params)
      (fun _ h => absurd h (List.not_mem_nil _))
  | .funcType (.mk typeParams params (some results)) =>
    c.funcType typeParams params (some results) (TypeCases.fields c params)
      (TypeCases.fields c results)
  | .mapType key value => c.mapType key value (TypeCases.all c key) (TypeCases.all c value)
  | .arrayType len elt => c.arrayType len elt (TypeCases.all c elt)
  | .structType fields incomplete => c.structType fields incomplete (TypeCases.fields c fields)
  | .interfaceType methods incomplete =>
    c.interfaceType methods incomplete (TypeCases.fields c methods)
  | .unaryExpr op x => c.unaryExpr op x
  | .binaryExpr x op y => c.binaryExpr x op y
  | .basicLit kind value => c.basicLit kind value
  | .other typeName => c.other typeName
theorem TypeCases.fields {P : Expr → Prop} (c : TypeCases P) :
    ∀ (l : List Field) (f : Field), f ∈ l → P f.type
  | [], _, h => absurd h (List.not_mem_nil _)
  | .mk _ t :: rest, f, h =>
    (List.mem_cons.1 h).elim (fun hf => hf ▸ TypeCases.all c t)
      (fun hf => TypeCases.fields c rest f hf)
end

theorem structFields_groupLoop : GroupLoop structFields Err.namelessField :=
  ⟨structFields_nil, structFields_nameless, structFields_cons⟩

theorem interfaceMethods_groupLoop : GroupLoop interfaceMethods Err.namelessMethod :=
  ⟨interfaceMethods_nil, interfaceMethods_nameless, interfaceMethods_cons⟩

theorem funcParams_groupLoop : GroupLoop funcParams Err.parameterWithoutName :=
  ⟨funcParams_nil, funcParams_nameless, funcParams_cons⟩

theorem GroupLoop.ok_iff {loop : Stream → List Field → Bool → Outcome × Bool}
    {nameless : Err} (hL : GroupLoop loop nameless) (w : Stream) (l : List Field) (first : Bool) :
    (loop w l first).1.err = none ↔
      ∀ f ∈ l, f.names ≠ [] ∧ (translateType w f.type).err = none := by
  induction l generalizing first with
  | nil => simp [hL.nil, skip]
  | cons f rest ih =>
    obtain ⟨names, t⟩ := f
    by_cases hn : names = []
    · subst hn
      simp [hL.rejects, abort, Field.names]
    · rw [hL.named w names t rest first hn, andThen_err_none, translateNames_err _ _ _ _ hn,
        ih]
      simp [Field.names, Field.type, hn]

theorem GroupLoop.err_some {loop : Stream → List Field → Bool → Outcome × Bool}
    {nameless : Err} (hL : GroupLoop loop nameless) (w : Stream) (l : List Field)
    (first : Bool) (e : Err) (h : (loop w l first).1.err = some e) :
    e = nameless ∨ ∃ f ∈ l, (translateType w f.type).err = some e := by
  induction l generalizing first with
  | nil => simp [hL.nil, skip] at h
  | cons f rest ih =>
    obtain ⟨names, t⟩ := f
    by_cases hn : names = []
    · subst hn
      simp only [hL.rejects, abort, Option.some.injEq] at h
      exact Or.inl h.symm
    · rw [hL.named w names t rest first hn, andThen_err_some,
        translateNames_err _ _ _ _ hn] at h
      rcases h with h | ⟨_, h⟩
      · exact Or.inr ⟨Field.mk names t, List.mem_cons_self _ _, h⟩
      · rcases ih _ h with h | ⟨f, hf, h⟩
        · exact Or.inl h
        · exact Or.inr ⟨f, List.mem_cons_of_mem _ hf, h⟩

theorem funcResults_nil (w : Stream) (first : Bool) :
    funcResults w [] first = (skip, first) := by
  rw [funcResults]

theorem funcResults_ok_iff (w : Stream) (l : List Field) (first : Bool) :
    (funcResults w l first).1.err = none ↔ ∀ f ∈ l, (translateType w f.type).err = none := by
  induction l generalizing first with
  | nil => simp [funcResults_nil, skip]
  | cons f rest ih =>
    obtain ⟨names, t⟩ := f
    by_cases hn : names = []
    · subst hn
      rw [funcResults_cons_nameless, andThen_err_none, andThen_err_none,
        translateFieldWithoutName_err, ih]
      simp [Field.type]
    · rw [funcResults_cons w names t rest first hn, andThen_err_none,
        translateNames_err _ _ _ _ hn, ih]
      simp [Field.type]

theorem funcResults_err_some (w : Stream) (l : List Field) (first : Bool) (e : Err)
    (h : (funcResults w l first).1.err = some e) :
    ∃ f ∈ l, (translateType w f.type).err = some e := by
  induction l generalizing first with
  | nil => simp [funcResults_nil, skip] at h
  | cons f rest ih =>
    obtain ⟨names, t⟩ := f
    by_cases hn : names = []
    · subst hn
      rw [funcResults_cons_nameless, andThen_err_some, andThen_err_some,
        translateFieldWithoutName_err] at h
      rcases h with (h | ⟨_, h⟩) | ⟨_, h⟩
      · simp at h
      · exact ⟨Field.mk [] t, List.mem_cons_self _ _, h⟩
      · obtain ⟨f, hf, h⟩ := ih _ h
        exact ⟨f, List.mem_cons_of_mem _ hf, h⟩
    · rw [funcResults_cons w names t rest first hn, andThen_err_some,
        translateNames_err _ _ _ _ hn] at h
      rcases h with h | ⟨_, h⟩
      · exact ⟨Field.mk names t, List.mem_cons_self _ _, h⟩
      · obtain ⟨f, hf, h⟩ := ih _ h
        exact ⟨f, List.mem_cons_of_mem _ hf, h⟩

theorem translateArrayLen_err_some (w : Stream) (len : Option Expr) (e : Err)
    (h : (translateArrayLen w len).err = some e) : e = Err.arrayLengthNotBasicLit := by
  cases len with
  | none => simp [translateArrayLen, fprint] at h
  | some l =>
    cases l <;> simp [translateArrayLen, fprint, abort] at h <;> exact h.symm

theorem translateFuncType_err_some (w : Stream) (typeParams : Option (List Field))
    (params : List Field) (results : Option (List Field)) (e : Err)
    (h : (translateFuncType w (FuncType.mk typeParams params results)).err = some e) :
    e = Err.parameterWithoutName ∨
      (∃ f ∈ params, (translateType w f.type).err = some e) ∨
      ∃ f ∈ results.getD [], (translateType w f.type).err = some e := by
  rw [translateFuncType.eq_def] at h
  simp only [andThen_err_some, diag_err, fprint_err, false_or, true_and, reduceCtorEq,
    or_false, and_false] at h
  rcases h with h | ⟨_, h⟩
  · rcases funcParams_groupLoop.err_some w params true e h with h | h
    · exact Or.inl h
    · exact Or.inr (Or.inl h)
  · cases results with
    | none => simp [skip] at h
    | some rs => exact Or.inr (Or.inr (funcResults_err_some w rs true e h))

theorem translateType_err_raisedByType (w : Stream) :
    ∀ (t : Expr) (e : Err), (translateType w t).err = some e → e.raisedByType = true := by
  apply TypeCases.all
  constructor
  · intro name e h
    rw [translateType] at h
    simp at h
  · intro x sel ih e h
    rw [translateType] at h
    simp only [andThen_err_some, fprint_err, printf_err, false_or, true_and, reduceCtorEq,
      or_false, and_false] at h
    exact ih e h
  · intro x ih e h
    rw [translateType] at h
    simp only [andThen_err_some, fprint_err, printf_err, false_or, true_and, reduceCtorEq,
      or_false, and_false] at h
    exact ih e h
  · intro typeParams params results ihp ihr e h
    rw [translateType] at h
    rcases translateFuncType_err_some w typeParams params results e h with h | h | h
    · subst h
      rfl
    · obtain ⟨f, hf, h⟩ := h
      exact ihp f hf e h
    · obtain ⟨f, hf, h⟩ := h
      exact ihr f hf e h
  · intro key value ihk ihv e h
    rw [translateType] at h
    simp only [andThen_err_some, fprint_err, printf_err, false_or, true_and, reduceCtorEq,
      or_false, and_false] at h
    rcases h with h | ⟨_, h⟩
    · exact ihk e h
    · exact ihv e h
  · intro len elt ih e h
    rw [translateType] at h
    simp only [andThen_err_some, fprint_err, printf_err, false_or, true_and, reduceCtorEq,
      or_false, and_false] at h
    rcases h with h | ⟨_, h⟩
    · rw [translateArrayLen_err_some w len e h]
      rfl
    · exact ih e h
  · intro fields incomplete ih e h
    rw [translateType] at h
    simp only [andThen_err_some, fprint_err, printf_err, false_or, true_and, reduceCtorEq,
      or_false, and_false] at h
    rcases structFields_groupLoop.err_some w fields true e h with h | ⟨f, hf, h⟩
    · subst h
      rfl
    · exact ih f hf e h
  · intro methods incomplete ih e h
    rw [translateType] at h
    simp only [andThen_err_some, fprint_err, printf_err, false_or, true_and, reduceCtorEq,
      or_false, and_false] at h
    rcases interfaceMethods_groupLoop.err_some w methods true e h with h | ⟨f, hf, h⟩
    · subst h
      rfl
    · exact ih f hf e h
  · intro op x e h
    rw [translateType] at h
    split at h <;> simp only [abort, Option.some.injEq] at h <;> subst h <;> rfl
  · intro x op y e h
    rw [translateType] at h
    split at h <;> simp only [abort, Option.some.injEq] at h <;> subst h <;> rfl
  · intro kind value e h
    rw [translateType] at h
    simp only [abort, Option.some.injEq] at h
    subst h
    rfl
  · intro typeName e h
    rw [translateType] at h
    simp only [abort, Option.some.injEq] at h
    subst h
    rfl

theorem translateReceiver_rejects (w : Stream) (name : String) (l : List Field)
    (h : ∀ (r : String) (t : Expr), l ≠ [Field.mk [r] t]) :
    translateReceiver w name (some l) = abort (Err.unexpectedNumberOfReceivers name) := by
  match l, h with
  | [], _ => rfl
  | [.mk [] _], _ => rfl
  | [.mk [r] t], h => exact absurd rfl (h r t)
  | [.mk (_ :: _ :: _) _], _ => rfl
  | _ :: _ :: _, _ => simp [translateReceiver]

theorem funcDecl_err_of_receiver (w : Stream) (recv : Option (List Field)) (name : String)
    (type : FuncType) (first : Bool) (e : Err)
    (hr : (translateReceiver w name recv).err = some e) :
    (translateDeclaration w (Decl.funcDecl recv name type) first).1.err = some e := by
  simp only [translateDeclaration]
  rw [andThen_err _ _ (beforeItem_err _ _), andThen_err _ _ (fprint_err _ _)]
  exact andThen_eq_of_err _ _ e hr

theorem funcDecl_err_some (w : Stream) (recv : Option (List Field)) (name : String)
    (type : FuncType) (first : Bool) (e : Err)
    (h : (translateDeclaration w (Decl.funcDecl recv name type) first).1.err = some e) :
    (translateReceiver w name recv).err = some e ∨
      (translateType w (Expr.funcType type)).err = some e := by
  simp only [translateDeclaration, andThen_err_some, beforeItem_err, fprint_err, false_or,
    true_and, reduceCtorEq, or_false, and_false] at h
  rcases h with h | ⟨_, h⟩
  · exact Or.inl h
  · rw [translateType]
    exact Or.inr h

/-! ## The claim on the receiver -/

/-- C12: the translation of a function declaration aborts with the receiver abort if
and only if the receiver list is present and is not one field group with one name: so
it does for a list of two or more groups, for an empty list, for one group of two or
more names and for one group without names; and so it does not when the receiver is
absent or is one group with one name. -/
theorem receiver_abort_iff_wrong_shape (w : Stream) (recv : Option (List Field))
    (name : String) (type : FuncType) (first : Bool) :
    ((∃ f : String,
        (translateDeclaration w (Decl.funcDecl recv name type) first).1.err =
          some (Err.unexpectedNumberOfReceivers f)) ↔
      ∃ l : List Field, recv = some l ∧ ∀ (r : String) (t : Expr), l ≠ [Field.mk [r] t]) ∧
    (∀ (g1 g2 : Field) (rest : List Field),
      (translateDeclaration w (Decl.funcDecl (some (g1 :: g2 :: rest)) name type)
        first).1.err = some (Err.unexpectedNumberOfReceivers name)) ∧
    (translateDeclaration w (Decl.funcDecl (some []) name type) first).1.err =
      some (Err.unexpectedNumberOfReceivers name) ∧
    (∀ (r1 r2 : String) (rs : List String) (t : Expr),
      (translateDeclaration w (Decl.funcDecl (some [Field.mk (r1 :: r2 :: rs) t]) name type)
        first).1.err = some (Err.unexpectedNumberOfReceivers name)) ∧
    (∀ t : Expr,
      (translateDeclaration w (Decl.funcDecl (some [Field.mk [] t]) name type)
        first).1.err = some (Err.unexpectedNumberOfReceivers name)) := by
  have bad : ∀ l : List Field, (∀ (r : String) (t : Expr), l ≠ [Field.mk [r] t]) →
      (translateDeclaration w (Decl.funcDecl (some l) name type) first).1.err =
        some (Err.unexpectedNumberOfReceivers name) := by
    intro l hl
    apply funcDecl_err_of_receiver
    rw [translateReceiver_rejects w name l hl]
    rfl
  refine ⟨⟨?_, ?_⟩, ?_, ?_, ?_, ?_⟩
  · rintro ⟨f, h⟩
    have notType : ∀ t : Expr,
        (translateType w t).err ≠ some (Err.unexpectedNumberOfReceivers f) := by
      intro t ht
      have := translateType_err_raisedByType w t _ ht
      simp [Err.raisedByType] at this
    rcases funcDecl_err_some w recv name type first _ h with h | h
    · match recv, h with
      | none, h => simp [translateReceiver, fprint] at h
      | some [], _ => exact ⟨_, rfl, fun r t hc => by cases hc⟩
      | some [.mk [] _], _ => exact ⟨_, rfl, fun r t hc => by cases hc⟩
      | some [.mk [r] t], h =>
        simp only [translateReceiver, translateField_err] at h
        exact absurd h (notType t)
      | some [.mk (_ :: _ :: _) _], _ => exact ⟨_, rfl, fun r t hc => by cases hc⟩
      | some (_ :: _ :: _), _ => exact ⟨_, rfl, fun r t hc => by cases hc⟩
    · exact absurd h (notType _)
  · rintro ⟨l, rfl, hl⟩
    exact ⟨name, bad l hl⟩
  · intro g1 g2 rest
    exact bad _ (fun r t hc => by cases hc)
  · exact bad _ (fun r t hc => by cases hc)
  · intro r1 r2 rs t
    exact bad _ (fun r t hc => by cases hc)
  · intro t
    exact bad _ (fun r t hc => by cases hc)

/-! ## Success and support -/

theorem supportedGroups_iff (l : List Field) :
    supportedGroups l = true ↔ ∀ f ∈ l, f.names ≠ [] ∧ supported f.type = true := by
  induction l with
  | nil => simp [supportedGroups]
  | cons f rest ih =>
    obtain ⟨names, t⟩ := f
    cases names <;> simp [supportedGroups, ih, Field.names, Field.type]

theorem supportedResults_iff (l : List Field) :
    supportedResults l = true ↔ ∀ f ∈ l, supported f.type = true := by
  induction l with
  | nil => simp [supportedResults]
  | cons f rest ih =>
    obtain ⟨names, t⟩ := f
    simp [supportedResults, ih, Field.type]

theorem translateArrayLen_ok_iff (w : Stream) (len : Option Expr) :
    (translateArrayLen w len).err = none ↔ literalOrAbsent len = true := by
  cases len with
  | none => simp [translateArrayLen, literalOrAbsent]
  | some l => cases l <;> simp [translateArrayLen, literalOrAbsent, abort]

theorem translateFuncType_ok_iff (w : Stream) (typeParams : Option (List Field))
    (params : List Field) (results : Option (List Field)) :
    (translateFuncType w (FuncType.mk typeParams params results)).err = none ↔
      (∀ f ∈ params, f.names ≠ [] ∧ (translateType w f.type).err = none) ∧
        ∀ f ∈ results.getD [], (translateType w f.type).err = none := by
  rw [translateFuncType.eq_def]
  simp only [andThen_err_none, diag_err, fprint_err, true_and, and_true,
    funcParams_groupLoop.ok_iff]
  cases results with
  | none => simp
  | some rs => simp [funcResults_ok_iff]

theorem translateType_ok_iff (w : Stream) :
    ∀ t : Expr, (translateType w t).err = none ↔ supported t = true := by
  apply TypeCases.all
  constructor
  · intro name
    rw [translateType]
    simp [supported]
  · intro x sel ih
    rw [translateType]
    simp [andThen_err_none, supported, ih]
  · intro x ih
    rw [translateType]
    simp [andThen_err_none, supported, ih]
  · intro typeParams params results ihp ihr
    rw [translateType, translateFuncType_ok_iff]
    have hp : (∀ f ∈ params, f.names ≠ [] ∧ (translateType w f.type).err = none) ↔
        supportedGroups params = true := by
      rw [supportedGroups_iff]
      exact forall₂_congr (fun f hf => by rw [ihp f hf])
    cases results with
    | none => simp [supported, supportedFunc, hp]
    | some rs =>
      have hr : (∀ f ∈ rs, (translateType w f.type).err = none) ↔
          supportedResults rs = true := by
        rw [supportedResults_iff]
        exact forall₂_congr (fun f hf => by rw [ihr f hf])
      simp [supported, supportedFunc, hp, hr]
  · intro key value ihk ihv
    rw [translateType]
    simp [andThen_err_none, supported, ihk, ihv]
  · intro len elt ih
    rw [translateType]
    simp [andThen_err_none, supported, ih, translateArrayLen_ok_iff]
  · intro fields incomplete ih
    rw [translateType]
    simp only [andThen_err_none, fprint_err, printf_err, true_and, and_true,
      structFields_groupLoop.ok_iff, supported, supportedGroups_iff]
    exact forall₂_congr (fun f hf => by rw [ih f hf])
  · intro methods incomplete ih
    rw [translateType]
    simp only [andThen_err_none, fprint_err, printf_err, true_and, and_true,
      interfaceMethods_groupLoop.ok_iff, supported, supportedGroups_iff]
    exact forall₂_congr (fun f hf => by rw [ih f hf])
  · intro op x
    rw [translateType]
    split <;> simp [abort, supported]
  · intro x op y
    rw [translateType]
    split <;> simp [abort, supported]
  · intro kind value
    rw [translateType]
    simp [abort, supported]
  · intro typeName
    rw [translateType]
    simp [abort, supported]

/-! ## The claim on success -/

/-- C20: `translateType` succeeds on a type expression if and only if the expression is
supported: an identifier is; a selector or pointer is iff its base is; a map iff key and
value are; an array iff its length is absent or a literal and its element is; a struct
or interface iff every group has at least one name and a supported type; a function type
iff every parameter group has at least one name and all parameter and result types are;
no other node is. -/
theorem succeeds_iff_supported (w : Stream) (t : Expr) :
    ((translateType w t).err = none ↔ supported t = true) ∧
    (∀ name : String, supported (Expr.ident name) = true) ∧
    (∀ (x : Expr) (sel : String), supported (Expr.selectorExpr x sel) = supported x) ∧
    (∀ x : Expr, supported (Expr.starExpr x) = supported x) ∧
    (∀ key value : Expr,
      supported (Expr.mapType key value) = (supported key && supported value)) ∧
    (∀ (len : Option Expr) (elt : Expr),
      supported (Expr.arrayType len elt) = true ↔
        (len = none ∨ ∃ (kind : Token) (s : String), len = some (Expr.basicLit kind s)) ∧
          supported elt = true) ∧
    (∀ (fields : List Field) (incomplete : Bool),
      (supported (Expr.structType fields incomplete) = true ↔
        ∀ f ∈ fields, f.names ≠ [] ∧ supported f.type = true) ∧
      (supported (Expr.interfaceType fields incomplete) = true ↔
        ∀ f ∈ fields, f.names ≠ [] ∧ supported f.type = true)) ∧
    (∀ (typeParams : Option (List Field)) (params : List Field)
        (results : Option (List Field)),
      supported (Expr.funcType (FuncType.mk typeParams params results)) = true ↔
        (∀ f ∈ params, f.names ≠ [] ∧ supported f.type = true) ∧
          ∀ f ∈ results.getD [], supported f.type = true) ∧
    (∀ (op : Token) (x y : Expr) (kind : Token) (value typeName : String),
      supported (Expr.unaryExpr op x) = false ∧ supported (Expr.binaryExpr x op y) = false ∧
        supported (Expr.basicLit kind value) = false ∧
        supported (Expr.other typeName) = false) := by
  refine ⟨translateType_ok_iff w t, fun _ => by simp [supported],
    fun _ _ => by simp [supported], fun _ => by simp [supported],
    fun _ _ => by simp [supported], ?_, ?_, ?_, fun _ _ _ _ _ _ => by simp [supported]⟩
  · intro len elt
    have hl : literalOrAbsent len = true ↔
        (len = none ∨ ∃ (kind : Token) (s : String), len = some (Expr.basicLit kind s)) := by
      cases len with
      | none => simp [literalOrAbsent]
      | some l => cases l <;> simp [literalOrAbsent]
    simp [supported, hl]
  · intro fields incomplete
    simp [supported, supportedGroups_iff]
  · intro typeParams params results
    cases results <;>
      simp [supported, supportedFunc, supportedGroups_iff, supportedResults_iff]

/-- C20 at `map[string][]*pkg.T`, supported and translated, and at
`interface { io.Reader; Close() error }`, not supported and not translated. -/
theorem succeeds_iff_supported_witness :
    supported mapOfSlices = true ∧ (translateType Stream.stdout mapOfSlices).err = none ∧
      supported embeddingInterface = false ∧
      (translateType Stream.stdout embeddingInterface).err ≠ none :=
  ⟨by decide, (succeeds_iff_supported Stream.stdout mapOfSlices).1.2 (by decide),
    by decide,
    fun h => absurd ((succeeds_iff_supported Stream.stdout embeddingInterface).1.1 h)
      (by decide)⟩

/-! ## The claims on the case tags -/

theorem typeText_star (w : Stream) (B : Expr) (hB : (translateType w B).err = none) :
    typeText w (Expr.starExpr B) =
      "\x7b\"Case\":\"Star\",\"Fields\":[" ++ typeText w B ++ "]\x7d" := by
  rw [typeText, translateType, primary_andThen _ _ _ (fprint_err _ _),
    primary_andThen _ _ _ hB, primary_fprint, primary_printf, ← typeText,
    String.append_assoc]

/-- C19 fails at the identifier `int` and the pointer `*int`: the case tags written
are `Ident` and `Star`, not `Identifier` and `Pointer`. -/
theorem identifier_tag_is_Ident :
    typeText Stream.stdout (Expr.ident "int") =
        "\x7b\"Case\":\"Ident\",\"Fields\":[\"int\"]\x7d" ∧
      typeText Stream.stdout (Expr.ident "int") ≠
        "\x7b\"Case\":\"Identifier\",\"Fields\":[\"int\"]\x7d" ∧
      typeText Stream.stdout pointerToInt =
        "\x7b\"Case\":\"Star\",\"Fields\":[\x7b\"Case\":\"Ident\",\"Fields\":[\"int\"]\x7d]\x7d" ∧
      typeText Stream.stdout pointerToInt ≠
        "\x7b\"Case\":\"Pointer\",\"Fields\":[\x7b\"Case\":\"Ident\",\"Fields\":[\"int\"]\x7d]\x7d" := by
  have h1 : typeText Stream.stdout (Expr.ident "int") =
      "\x7b\"Case\":\"Ident\",\"Fields\":[\"int\"]\x7d" := by
    rw [typeText_ident]
    decide
  have h2 : typeText Stream.stdout pointerToInt =
      "\x7b\"Case\":\"Star\",\"Fields\":[\x7b\"Case\":\"Ident\",\"Fields\":[\"int\"]\x7d]\x7d" := by
    rw [pointerToInt, typeText_star _ _ (translateType_ident_ok _ _), h1]
    decide
  refine ⟨h1, ?_, h2, ?_⟩
  · rw [h1]
    decide
  · rw [h2]
    decide

/-- C19 as amended: the identifier `n` is translated by the one write, to the writer,
of the object with Case `Ident` and Fields `["n"]`, the name copied as it is; a pointer
whose base translates successfully is translated to the object with Case `Star` whose
only field is the translation of the base. -/
theorem identifier_and_pointer_values (w : Stream) (n : String) (B : Expr)
    (hB : (translateType w B).err = none) :
    translateType w (Expr.ident n) =
        fprint w ("\x7b\"Case\":\"Ident\",\"Fields\":[\"" ++ n ++ "\"]\x7d") ∧
      typeText w (Expr.ident n) = "\x7b\"Case\":\"Ident\",\"Fields\":[\"" ++ n ++ "\"]\x7d" ∧
      (translateType w (Expr.starExpr B)).err = none ∧
      typeText w (Expr.starExpr B) =
        "\x7b\"Case\":\"Star\",\"Fields\":[" ++ typeText w B ++ "]\x7d" := by
  refine ⟨by rw [translateType], typeText_ident w n, ?_, typeText_star w B hB⟩
  rw [translateType]
  simp [andThen_err_none, hB]

/-- C19 as amended, at `int` and `*int`. -/
theorem identifier_and_pointer_values_witness :
    (translateType Stream.stdout (Expr.ident "int")).err = none ∧
      typeText Stream.stdout (Expr.starExpr (Expr.ident "int")) =
        "\x7b\"Case\":\"Star\",\"Fields\":[" ++ typeText Stream.stdout (Expr.ident "int") ++
          "]\x7d" :=
  ⟨translateType_ident_ok _ _,
    (identifier_and_pointer_values Stream.stdout "int" (Expr.ident "int")
      (translateType_ident_ok _ _)).2.2.2⟩

/-! ## The shape of a serialized type -/

theorem GroupLoop.text {loop : Stream → List Field → Bool → Outcome × Bool} {nameless : Err}
    (hL : GroupLoop loop nameless) (w : Stream) (l : List Field) (first : Bool)
    (h : (loop w l first).1.err = none) :
    primary w (loop w l first).1.trace = separated first (l.flatMap (fieldEntries w)) := by
  induction l generalizing first with
  | nil => simp [hL.nil, separated]
  | cons f rest ih =>
    obtain ⟨names, t⟩ := f
    have hf := (hL.ok_iff w _ first).1 h (Field.mk names t) (List.mem_cons_self _ _)
    simp only [Field.names, Field.type] at hf
    obtain ⟨n1, n2, n3⟩ := translateNames_spec w t hf.2 names first
    have hne : names.isEmpty = false := by
      cases names with
      | nil => exact absurd rfl hf.1
      | cons _ _ => rfl
    rw [hne, Bool.and_false] at n2
    rw [hL.named w names t rest first hf.1, n2] at h ⊢
    rw [andThen_err_none] at h
    show primary w ((translateNames w names t first).1.andThen _).trace = _
    rw [primary_andThen _ _ _ n1, n3, ih false h.2, List.flatMap_cons, separated_append]
    simp [fieldEntries, Field.names, Field.type, hne, isEmpty_map_eq]

theorem translateArrayLen_text (w : Stream) (len : Option Expr)
    (h : (translateArrayLen w len).err = none) :
    primary w (translateArrayLen w len).trace = lengthText len ++ "," := by
  cases len with
  | none => simp [translateArrayLen, lengthText]
  | some l => cases l <;> simp [translateArrayLen, lengthText, abort] at h ⊢

theorem typeText_eq_valueShape (w : Stream) (hw : w ≠ Stream.stderr) (t : Expr)
    (h : (translateType w t).err = none) : typeText w t = valueShape w t := by
  cases t with
  | ident name =>
    rw [typeText_ident]
    simp only [valueShape, String.append_assoc]
    rw [← String.append_assoc "\x7b\"Case\":\"Ident\",\"Fields\":[" "\""]
    rfl
  | selectorExpr x sel =>
    rw [translateType] at h
    simp only [andThen_err_none, fprint_err, printf_err, true_and, and_true] at h
    rw [typeText, translateType, primary_andThen _ _ _ (fprint_err _ _),
      primary_andThen _ _ _ h]
    simp only [valueShape, typeText, primary_fprint, primary_printf, String.append_assoc]
    rfl
  | starExpr x =>
    rw [translateType] at h
    simp only [andThen_err_none, fprint_err, printf_err, true_and, and_true] at h
    rw [typeText_star w x h]
    rfl
  | funcType ft =>
    obtain ⟨typeParams, params, results⟩ := ft
    rw [translateType] at h
    have h' := h
    rw [translateFuncType.eq_def] at h'
    simp only [andThen_err_none, diag_err, fprint_err, true_and, and_true] at h'
    have hr : primary w (match results with
        | some rs => (funcResults w rs true).1
        | none => skip).trace =
        separated true ((results.getD []).flatMap (resultEntries w)) := by
      cases results with
      | none => rfl
      | some rs => exact funcResults_text w rs true h'.2
    rw [typeText, translateType, translateFuncType.eq_def]
    simp only []
    rw [primary_andThen _ _ _ (diag_err _ _), primary_andThen _ _ _ (fprint_err _ _),
      primary_andThen _ _ _ h'.1, primary_andThen _ _ _ (fprint_err _ _),
      primary_andThen _ _ _ h'.2, hr, primary_diag w hw,
      funcParams_groupLoop.text w params true h'.1]
    simp only [valueShape, primary_fprint, String.append_assoc, String.empty_append]
  | mapType key value =>
    rw [translateType] at h
    simp only [andThen_err_none, fprint_err, printf_err, true_and, and_true] at h
    rw [typeText, translateType, primary_andThen _ _ _ (fprint_err _ _),
      primary_andThen _ _ _ h.1, primary_andThen _ _ _ (fprint_err _ _),
      primary_andThen _ _ _ h.2]
    simp only [valueShape, typeText, primary_fprint, primary_printf, String.append_assoc]
  | arrayType len elt =>
    rw [translateType] at h
    simp only [andThen_err_none, fprint_err, printf_err, true_and, and_true] at h
    rw [typeText, translateType, primary_andThen _ _ _ (fprint_err _ _),
      primary_andThen _ _ _ h.1, primary_andThen _ _ _ h.2, translateArrayLen_text w len h.1]
    simp only [valueShape, typeText, primary_fprint, primary_printf, String.append_assoc]
  | structType fields incomplete =>
    rw [translateType] at h
    simp only [andThen_err_none, fprint_err, printf_err, true_and, and_true] at h
    rw [typeText, translateType, primary_andThen _ _ _ (fprint_err _ _),
      primary_andThen _ _ _ h, structFields_groupLoop.text w fields true h]
    simp only [valueShape, primary_fprint, primary_printf, String.append_assoc]
    rfl
  | interfaceType methods incomplete =>
    rw [translateType] at h
    simp only [andThen_err_none, fprint_err, printf_err, true_and, and_true] at h
    rw [typeText, translateType, primary_andThen _ _ _ (fprint_err _ _),
      primary_andThen _ _ _ h, interfaceMethods_groupLoop.text w methods true h]
    simp only [valueShape, primary_fprint, primary_printf, String.append_assoc]
    rfl
  | unaryExpr op x =>
    rw [translateType] at h
    split at h <;> simp [abort] at h
  | binaryExpr x op y =>
    rw [translateType] at h
    split at h <;> simp [abort] at h
  | basicLit kind value =>
    rw [translateType] at h
    simp [abort] at h
  | other typeName =>
    rw [translateType] at h
    simp [abort] at h

theorem typeText_dummyType :
    typeText Stream.stdout (Expr.funcType dummyType) = "\x7b\"Params\":[],\"Results\":[]\x7d" := by
  simp [typeText, dummyType, translateType, translateFuncType, funcParams, Outcome.andThen,
    fprint, skip, primary]

theorem closerInterface_ok : (translateType Stream.stdout closerInterface).err = none :=
  (translateType_ok_iff Stream.stdout closerInterface).2 (by decide)

theorem typeText_closerInterface :
    typeText Stream.stdout closerInterface =
      "\x7b\"Case\":\"Interface\",\"Fields\":[false,[\x7b\"Name\":\"Close\",\"Type\":\x7b\"Params\":[],\"Results\":[\x7b\"Type\":\x7b\"Case\":\"Ident\",\"Fields\":[\"error\"]\x7d\x7d]\x7d\x7d]]\x7d" := by
  have hi : (translateType Stream.stdout (Expr.funcType
      (FuncType.mk none [] (some [Field.mk [] (Expr.ident "error")])))).err = none :=
    (translateType_ok_iff Stream.stdout _).2 (by decide)
  have ht := typeText_eq_valueShape Stream.stdout (by decide) _ hi
  rw [typeText_eq_valueShape Stream.stdout (by decide) _ closerInterface_ok]
  simp only [closerInterface, valueShape, List.flatMap_cons, List.flatMap_nil, fieldEntries,
    resultEntries, Field.names, Field.type, List.map, ht, typeText_ident, separated,
    fieldEntry, unnamedEntry, fmtBool, Option.getD_some, List.append_nil, if_true]
  simp

/-! ## The claim on the form of the values -/

/-- C18 fails at the function type `func()` and at the interface
`interface { Close() error }`: a function type is written as the object with the keys
`Params` and `Results`, which has no `Case` key, also as the type of a method. -/
theorem function_type_has_no_case_tag :
    (translateType Stream.stdout (Expr.funcType dummyType)).err = none ∧
      typeText Stream.stdout (Expr.funcType dummyType) =
        "\x7b\"Params\":[],\"Results\":[]\x7d" ∧
      (¬ ∃ rest : String,
        typeText Stream.stdout (Expr.funcType dummyType) = "\x7b\"Case\":" ++ rest) ∧
      (translateType Stream.stdout closerInterface).err = none ∧
      typeText Stream.stdout closerInterface =
        "\x7b\"Case\":\"Interface\",\"Fields\":[false,[\x7b\"Name\":\"Close\",\"Type\":\x7b\"Params\":[],\"Results\":[\x7b\"Type\":\x7b\"Case\":\"Ident\",\"Fields\":[\"error\"]\x7d\x7d]\x7d\x7d]]\x7d" := by
  refine ⟨?_, typeText_dummyType, ?_, closerInterface_ok, ?_⟩
  · rw [translateType]
    exact dummyType_ok
  · rw [typeText_dummyType]
    rintro ⟨rest, h⟩
    have hd := congrArg String.data h
    simp [String.data_append] at hd
  · exact typeText_closerInterface

/-- C18 as amended: the value emitted for a type expression on which `translateType`
succeeds is, for every node kind but the function type, an object of the form
`{"Case":c,"Fields":[...]}` with `c` one of Ident, Selector, Star, Map, Array, Struct,
Interface, and for a function type the object `{"Params":[...],"Results":[...]}`
without a `Case` key; the type values nested in it are the values emitted for the
sub-expressions, of these forms again. -/
theorem type_value_forms (w : Stream) (hw : w ≠ Stream.stderr) (t : Expr)
    (h : (translateType w t).err = none) :
    typeText w t = valueShape w t ∧
    ((∀ ft : FuncType, t ≠ Expr.funcType ft) →
      ∃ c ∈ ["Ident", "Selector", "Star", "Map", "Array", "Struct", "Interface"],
        ∃ body : String,
          typeText w t = "\x7b\"Case\":\"" ++ c ++ "\",\"Fields\":[" ++ body ++ "]\x7d") ∧
    (∀ ft : FuncType, t = Expr.funcType ft →
      ∃ params results : String,
        typeText w t = "\x7b\"Params\":[" ++ params ++ "],\"Results\":[" ++ results ++ "]\x7d") := by
  have hv := typeText_eq_valueShape w hw t h
  refine ⟨hv, ?_, ?_⟩
  · intro hf
    rw [hv]
    cases t with
    | ident name => exact ⟨"Ident", by simp, _, rfl⟩
    | selectorExpr x sel => exact ⟨"Selector", by simp, _, rfl⟩
    | starExpr x => exact ⟨"Star", by simp, _, rfl⟩
    | funcType ft => exact absurd rfl (hf ft)
    | mapType key value => exact ⟨"Map", by simp, _, rfl⟩
    | arrayType len elt => exact ⟨"Array", by simp, _, rfl⟩
    | structType fields incomplete => exact ⟨"Struct", by simp, _, rfl⟩
    | interfaceType methods incomplete => exact ⟨"Interface", by simp, _, rfl⟩
    | unaryExpr op x =>
      rw [translateType] at h
      split at h <;> simp [abort] at h
    | binaryExpr x op y =>
      rw [translateType] at h
      split at h <;> simp [abort] at h
    | basicLit kind value =>
      rw [translateType] at h
      simp [abort] at h
    | other typeName =>
      rw [translateType] at h
      simp [abort] at h
  · intro ft hft
    subst hft
    obtain ⟨typeParams, params, results⟩ := ft
    rw [hv]
    exact ⟨_, _, rfl⟩

/-- C18 as amended, at `interface { Close() error }`: an Interface object. -/
theorem type_value_forms_witness :
    Stream.stdout ≠ Stream.stderr ∧ (translateType Stream.stdout closerInterface).err = none ∧
      (∀ ft : FuncType, closerInterface ≠ Expr.funcType ft) ∧
      ∃ c ∈ ["Ident", "Selector", "Star", "Map", "Array", "Struct", "Interface"],
        ∃ body : String,
          typeText Stream.stdout closerInterface =
            "\x7b\"Case\":\"" ++ c ++ "\",\"Fields\":[" ++ body ++ "]\x7d" := by
  have hne : ∀ ft : FuncType, closerInterface ≠ Expr.funcType ft := by
    intro ft hc
    simp [closerInterface] at hc
  exact ⟨by decide, closerInterface_ok, hne,
    (type_value_forms Stream.stdout (by decide) closerInterface closerInterface_ok).2.1 hne⟩

/-! ## Diagnostics -/

theorem diagnostics_append (a b : List Event) :
    diagnostics (a ++ b) = diagnostics a ++ diagnostics b := by
  induction a with
  | nil => rfl
  | cons e rest ih =>
    show diagnostics (e :: (rest ++ b)) = _
    simp only [diagnostics]
    split
    · rw [ih, List.cons_append]
    · exact ih

theorem Inserted.base (s : String) (b : Outcome) :
    Inserted ⟨Stream.stderr, s⟩ ((fprint Stream.stderr s).andThen b) b :=
  ⟨[], b.trace, rfl, by rw [andThen_trace _ _ (fprint_err _ _)]; rfl,
    andThen_err _ _ (fprint_err _ _)⟩

theorem Inserted.after {d : Event} {x y : Outcome} (a : Outcome) (ha : a.err = none)
    (h : Inserted d x y) : Inserted d (a.andThen x) (a.andThen y) := by
  obtain ⟨p, q, h1, h2, h3⟩ := h
  refine ⟨a.trace ++ p, q, ?_, ?_, ?_⟩
  · rw [andThen_trace _ _ ha, h1, List.append_assoc]
  · rw [andThen_trace _ _ ha, h2, List.append_assoc]
  · rw [andThen_err _ _ ha, andThen_err _ _ ha, h3]

theorem Inserted.before {d : Event} {x y : Outcome} (c : Outcome) (h : Inserted d x y) :
    Inserted d (x.andThen c) (y.andThen c) := by
  obtain ⟨p, q, h1, h2, h3⟩ := h
  cases hy : y.err with
  | some e =>
    rw [andThen_of_err y c e hy, andThen_of_err x c e (h3.trans hy)]
    exact ⟨p, q, h1, h2, h3⟩
  | none =>
    have hx : x.err = none := h3.trans hy
    refine ⟨p, q ++ c.trace, ?_, ?_, ?_⟩
    · rw [andThen_trace _ _ hy, h1, List.append_assoc]
    · rw [andThen_trace _ _ hx, h2, List.append_assoc, List.cons_append]
    · rw [andThen_err _ _ hx, andThen_err _ _ hy]

theorem Inserted.err_eq {d : Event} {x y : Outcome} (h : Inserted d x y) : x.err = y.err := by
  obtain ⟨_, _, _, _, h3⟩ := h
  exact h3

theorem Inserted.primary_eq {d : Event} {x y : Outcome} (w : Stream) (hw : w ≠ Stream.stderr)
    (hd : d.stream = Stream.stderr) (h : Inserted d x y) :
    primary w x.trace = primary w y.trace := by
  obtain ⟨p, q, h1, h2, _⟩ := h
  have hne : ¬(d.stream = w ∨ d.stream = Stream.stdout) := by
    rw [hd]
    rintro (h | h)
    · exact hw h.symm
    · cases h
  rw [h1, h2, primary_append, primary_append]
  simp only [primary, hne, if_false]

theorem Inserted.diagnostics_eq {d : Event} {x y : Outcome} (hd : d.stream = Stream.stderr)
    (h : Inserted d x y) :
    (diagnostics x.trace).length = (diagnostics y.trace).length + 1 ∧
      (diagnostics y.trace = [] → diagnostics x.trace = [d.text]) := by
  obtain ⟨p, q, h1, h2, _⟩ := h
  rw [h1, h2, diagnostics_append, diagnostics_append]
  simp only [diagnostics, hd, if_true, List.length_append, List.length_cons]
  refine ⟨by omega, fun h0 => ?_⟩
  rw [List.append_eq_nil] at h0
  rw [h0.1, h0.2]
  rfl

theorem declarationsLoop_append (w : Stream) (l : List Decl) (pre : List Decl) (first : Bool)
    (h : (declarationsLoop w pre first).1.err = none) :
    (declarationsLoop w (pre ++ l) first).1 =
        (declarationsLoop w pre first).1.andThen
          (declarationsLoop w l (declarationsLoop w pre first).2).1 ∧
      (declarationsLoop w (pre ++ l) first).2 =
        (declarationsLoop w l (declarationsLoop w pre first).2).2 := by
  induction pre generalizing first with
  | nil => simp [declarationsLoop, skip_andThen]
  | cons d rest ih =>
    simp only [declarationsLoop, andThen_err_none] at h
    obtain ⟨h1, h2⟩ := ih _ h.2
    show (declarationsLoop w (d :: (rest ++ l)) first).1 = _ ∧
      (declarationsLoop w (d :: (rest ++ l)) first).2 = _
    simp only [declarationsLoop]
    exact ⟨by rw [h1, andThen_assoc], h2⟩

theorem declarationsLoop_of_err (w : Stream) (l : List Decl) (pre : List Decl) (first : Bool)
    (e : Err) (h : (declarationsLoop w pre first).1.err = some e) :
    (declarationsLoop w (pre ++ l) first).1 = (declarationsLoop w pre first).1 := by
  induction pre generalizing first with
  | nil => simp [declarationsLoop, skip] at h
  | cons d rest ih =>
    simp only [declarationsLoop, andThen_err_some] at h
    show (declarationsLoop w (d :: (rest ++ l)) first).1 = _
    simp only [declarationsLoop]
    rcases h with h | ⟨_, h⟩
    · rw [andThen_of_err _ _ e h, andThen_of_err _ _ e h]
    · rw [ih _ h]

theorem translateDeclarations_other (w : Stream) (pre post : List Decl) (typeName : String)
    (h : (declarationsLoop w pre true).1.err = none) :
    Inserted ⟨Stream.stderr, "Ignoring declaration " ++ typeName ++ "\n"⟩
      (translateDeclarations w (pre ++ Decl.other typeName :: post))
      (translateDeclarations w (pre ++ post)) := by
  have h1 := (declarationsLoop_append w (Decl.other typeName :: post) pre true h).1
  have h2 := (declarationsLoop_append w post pre true h).1
  simp only [translateDeclarations]
  rw [h1, h2]
  simp only [declarationsLoop, translateDeclaration]
  apply Inserted.after _ (fprint_err _ _)
  apply Inserted.before
  apply Inserted.after _ h
  exact Inserted.base _ _

/-! ## The claims on what is ignored -/

/-- C17: a top-level declaration that is neither a declaration group nor a function
declaration changes neither the primary output nor the success or abort of
`translateDeclarations`: both are those of the sequence without it; and when the
declarations before it translate, the trace is the trace of the sequence without it with
the one line `Ignoring declaration ...` written to the standard error in between. -/
theorem ignored_declaration_leaves_output (w : Stream) (hw : w ≠ Stream.stderr)
    (pre post : List Decl) (typeName : String) :
    primary w (translateDeclarations w (pre ++ Decl.other typeName :: post)).trace =
        primary w (translateDeclarations w (pre ++ post)).trace ∧
      (translateDeclarations w (pre ++ Decl.other typeName :: post)).err =
        (translateDeclarations w (pre ++ post)).err ∧
      ((declarationsLoop w pre true).1.err = none →
        Inserted ⟨Stream.stderr, "Ignoring declaration " ++ typeName ++ "\n"⟩
            (translateDeclarations w (pre ++ Decl.other typeName :: post))
            (translateDeclarations w (pre ++ post)) ∧
          (diagnostics
              (translateDeclarations w (pre ++ Decl.other typeName :: post)).trace).length =
            (diagnostics (translateDeclarations w (pre ++ post)).trace).length + 1) := by
  have hins := translateDeclarations_other w pre post typeName
  cases hp : (declarationsLoop w pre true).1.err with
  | none =>
    have hi := hins hp
    exact ⟨hi.primary_eq w hw rfl, hi.err_eq, fun _ => ⟨hi, (hi.diagnostics_eq rfl).1⟩⟩
  | some e =>
    have heq : translateDeclarations w (pre ++ Decl.other typeName :: post) =
        translateDeclarations w (pre ++ post) := by
      simp only [translateDeclarations]
      rw [declarationsLoop_of_err w _ pre true e hp, declarationsLoop_of_err w _ pre true e hp]
    rw [heq]
    exact ⟨rfl, rfl, fun h => by simp at h⟩

theorem declsPrefix_ok :
    (declarationsLoop Stream.stdout [Decl.genDecl Token.IMPORT [Spec.importSpec "\"fmt\""]]
      true).1.err = none := by
  simp [declarationsLoop, translateDeclaration, andThen_err_none]

/-- C17 at `import "fmt"`, a bad declaration, `func Dummy() {}`. -/
theorem ignored_declaration_leaves_output_witness :
    Stream.stdout ≠ Stream.stderr ∧
      (declarationsLoop Stream.stdout [Decl.genDecl Token.IMPORT [Spec.importSpec "\"fmt\""]]
        true).1.err = none ∧
      primary Stream.stdout (translateDeclarations Stream.stdout declsWithBadDecl).trace =
        primary Stream.stdout (translateDeclarations Stream.stdout
          [Decl.genDecl Token.IMPORT [Spec.importSpec "\"fmt\""],
            Decl.funcDecl none "Dummy" dummyType]).trace ∧
      (diagnostics (translateDeclarations Stream.stdout declsWithBadDecl).trace).length =
        (diagnostics (translateDeclarations Stream.stdout
          [Decl.genDecl Token.IMPORT [Spec.importSpec "\"fmt\""],
            Decl.funcDecl none "Dummy" dummyType]).trace).length + 1 :=
  ⟨by decide, declsPrefix_ok,
    (ignored_declaration_leaves_output Stream.stdout (by decide)
      [Decl.genDecl Token.IMPORT [Spec.importSpec "\"fmt\""]]
      [Decl.funcDecl none "Dummy" dummyType] "*ast.BadDecl").1,
    ((ignored_declaration_leaves_output Stream.stdout (by decide)
      [Decl.genDecl Token.IMPORT [Spec.importSpec "\"fmt\""]]
      [Decl.funcDecl none "Dummy" dummyType] "*ast.BadDecl").2.2 declsPrefix_ok).2⟩

/-! ## Translations that write no diagnostic -/

theorem diagnostics_fprint (w : Stream) (hw : w ≠ Stream.stderr) (s : String) :
    diagnostics (fprint w s).trace = [] := by
  simp [fprint, diagnostics, hw]

theorem diagnostics_printf (s : String) : diagnostics (printf s).trace = [] := by
  simp [printf, fprint, diagnostics]

theorem diagnostics_beforeItem (w : Stream) (hw : w ≠ Stream.stderr) (first : Bool) :
    diagnostics (beforeItem w first).trace = [] := by
  cases first
  · exact diagnostics_fprint w hw _
  · rfl

theorem diagnostics_andThen_nil (a b : Outcome) (ha : diagnostics a.trace = [])
    (hb : diagnostics b.trace = []) : diagnostics (a.andThen b).trace = [] := by
  unfold Outcome.andThen
  cases a.err with
  | some e => exact ha
  | none =>
    show diagnostics (a.trace ++ b.trace) = []
    rw [diagnostics_append, ha, hb]
    rfl

theorem diagnostics_translateField (w : Stream) (hw : w ≠ Stream.stderr) (name : String)
    (t : Expr) (h : diagnostics (translateType w t).trace = []) :
    diagnostics (translateField w name t).trace = [] := by
  rw [translateField]
  exact diagnostics_andThen_nil _ _ (diagnostics_fprint w hw _)
    (diagnostics_andThen_nil _ _ h (diagnostics_fprint w hw _))

theorem diagnostics_translateFieldWithoutName (w : Stream) (hw : w ≠ Stream.stderr)
    (t : Expr) (h : diagnostics (translateType w t).trace = []) :
    diagnostics (translateFieldWithoutName w t).trace = [] := by
  rw [translateFieldWithoutName]
  exact diagnostics_andThen_nil _ _ (diagnostics_fprint w hw _)
    (diagnostics_andThen_nil _ _ h (diagnostics_fprint w hw _))

theorem diagnostics_translateNames (w : Stream) (hw : w ≠ Stream.stderr) (t : Expr)
    (h : diagnostics (translateType w t).trace = []) (names : List String) (first : Bool) :
    diagnostics (translateNames w names t first).1.trace = [] := by
  induction names generalizing first with
  | nil => rw [translateNames]; rfl
  | cons n rest ih =>
    rw [translateNames]
    exact diagnostics_andThen_nil _ _
      (diagnostics_andThen_nil _ _ (diagnostics_beforeItem w hw first)
        (diagnostics_translateField w hw n t h)) (ih false)

theorem GroupLoop.diagnostics_nil {loop : Stream → List Field → Bool → Outcome × Bool}
    {nameless : Err} (hL : GroupLoop loop nameless) (w : Stream) (hw : w ≠ Stream.stderr)
    (l : List Field) (first : Bool)
    (h : ∀ f ∈ l, diagnostics (translateType w f.type).trace = []) :
    diagnostics (loop w l first).1.trace = [] := by
  induction l generalizing first with
  | nil => rw [hL.nil]; rfl
  | cons f rest ih =>
    obtain ⟨names, t⟩ := f
    by_cases hn : names = []
    · subst hn
      rw [hL.rejects]
      rfl
    · rw [hL.named w names t rest first hn]
      exact diagnostics_andThen_nil _ _
        (diagnostics_translateNames w hw t (h _ (List.mem_cons_self _ _)) names first)
        (ih _ (fun f hf => h f (List.mem_cons_of_mem _ hf)))

theorem diagnostics_funcResults (w : Stream) (hw : w ≠ Stream.stderr) (l : List Field)
    (first : Bool) (h : ∀ f ∈ l, diagnostics (translateType w f.type).trace = []) :
    diagnostics (funcResults w l first).1.trace = [] := by
  induction l generalizing first with
  | nil => rw [funcResults_nil]; rfl
  | cons f rest ih =>
    obtain ⟨names, t⟩ := f
    have ht := h _ (List.mem_cons_self _ _)
    have hr := fun b => ih b (fun f hf => h f (List.mem_cons_of_mem _ hf))
    by_cases hn : names = []
    · subst hn
      rw [funcResults_cons_nameless]
      exact diagnostics_andThen_nil _ _
        (diagnostics_andThen_nil _ _ (diagnostics_beforeItem w hw first)
          (diagnostics_translateFieldWithoutName w hw t ht)) (hr false)
    · rw [funcResults_cons w names t rest first hn]
      exact diagnostics_andThen_nil _ _ (diagnostics_translateNames w hw t ht names first)
        (hr _)

theorem groupsDeclareNone_iff (l : List Field) :
    groupsDeclareNone l = true ↔ ∀ f ∈ l, declaresNone f.type = true := by
  induction l with
  | nil => simp [groupsDeclareNone]
  | cons f rest ih =>
    obtain ⟨names, t⟩ := f
    simp [groupsDeclareNone, ih, Field.type]

theorem diagnostics_plainSignature (w : Stream) (hw : w ≠ Stream.stderr)
    (params : List Field) (results : Option (List Field))
    (hp : ∀ f ∈ params, diagnostics (translateType w f.type).trace = [])
    (hr : ∀ f ∈ results.getD [], diagnostics (translateType w f.type).trace = []) :
    diagnostics (translateFuncType w (FuncType.mk none params results)).trace = [] := by
  rw [translateFuncType.eq_def]
  simp only [Option.isSome_none, Bool.false_eq_true, if_false]
  refine diagnostics_andThen_nil _ _ rfl (diagnostics_andThen_nil _ _
    (diagnostics_fprint w hw _) (diagnostics_andThen_nil _ _
      (funcParams_groupLoop.diagnostics_nil w hw params true hp)
      (diagnostics_andThen_nil _ _ (diagnostics_fprint w hw _)
        (diagnostics_andThen_nil _ _ ?_ (diagnostics_fprint w hw _)))))
  cases results with
  | none => rfl
  | some rs => exact diagnostics_funcResults w hw rs true hr

theorem diagnostics_translateType (w : Stream) (hw : w ≠ Stream.stderr) :
    ∀ t : Expr, declaresNone t = true → diagnostics (translateType w t).trace = [] := by
  apply TypeCases.all
  constructor
  · intro name _
    rw [translateType]
    exact diagnostics_fprint w hw _
  · intro x sel ih h
    rw [translateType]
    exact diagnostics_andThen_nil _ _ (diagnostics_fprint w hw _)
      (diagnostics_andThen_nil _ _ (ih (by simpa [declaresNone] using h))
        (diagnostics_printf _))
  · intro x ih h
    rw [translateType]
    exact diagnostics_andThen_nil _ _ (diagnostics_fprint w hw _)
      (diagnostics_andThen_nil _ _ (ih (by simpa [declaresNone] using h))
        (diagnostics_printf _))
  · intro typeParams params results ihp ihr h
    rw [translateType]
    have hf : typeParams = none ∧ (∀ f ∈ params, declaresNone f.type = true) ∧
        ∀ f ∈ results.getD [], declaresNone f.type = true := by
      cases results <;> cases typeParams <;>
        simp [declaresNone, funcDeclaresNone, groupsDeclareNone_iff] at h ⊢ <;> exact h
    obtain ⟨rfl, hp, hr⟩ := hf
    exact diagnostics_plainSignature w hw params results
      (fun f hf => ihp f hf (hp f hf)) (fun f hf => ihr f hf (hr f hf))
  · intro key value ihk ihv h
    rw [translateType]
    simp only [declaresNone, Bool.and_eq_true] at h
    exact diagnostics_andThen_nil _ _ (diagnostics_fprint w hw _)
      (diagnostics_andThen_nil _ _ (ihk h.1)
        (diagnostics_andThen_nil _ _ (diagnostics_fprint w hw _)
          (diagnostics_andThen_nil _ _ (ihv h.2) (diagnostics_printf _))))
  · intro len elt ih h
    rw [translateType]
    have hl : diagnostics (translateArrayLen w len).trace = [] := by
      cases len with
      | none => exact diagnostics_fprint w hw _
      | some l => cases l <;> first | rfl | exact diagnostics_fprint w hw _
    exact diagnostics_andThen_nil _ _ (diagnostics_fprint w hw _)
      (diagnostics_andThen_nil _ _ hl
        (diagnostics_andThen_nil _ _ (ih (by simpa [declaresNone] using h))
          (diagnostics_printf _)))
  · intro fields incomplete ih h
    rw [translateType]
    simp only [declaresNone, groupsDeclareNone_iff] at h
    exact diagnostics_andThen_nil _ _ (diagnostics_fprint w hw _)
      (diagnostics_andThen_nil _ _
        (structFields_groupLoop.diagnostics_nil w hw fields true
          (fun f hf => ih f hf (h f hf))) (diagnostics_printf _))
  · intro methods incomplete ih h
    rw [translateType]
    simp only [declaresNone, groupsDeclareNone_iff] at h
    exact diagnostics_andThen_nil _ _ (diagnostics_fprint w hw _)
      (diagnostics_andThen_nil _ _
        (interfaceMethods_groupLoop.diagnostics_nil w hw methods true
          (fun f hf => ih f hf (h f hf))) (diagnostics_printf _))
  · intro op x _
    rw [translateType]
    split <;> rfl
  · intro x op y _
    rw [translateType]
    split <;> rfl
  · intro kind value _
    rw [translateType]
    rfl
  · intro typeName _
    rw [translateType]
    rfl

theorem diagnostics_translateReceiver (w : Stream) (hw : w ≠ Stream.stderr) (name : String)
    (recv : Option (List Field)) (h : groupsDeclareNone (recv.getD []) = true) :
    diagnostics (translateReceiver w name recv).trace = [] := by
  match recv, h with
  | none, _ => exact diagnostics_fprint w hw _
  | some [], _ => rfl
  | some [.mk [] _], _ => rfl
  | some [.mk [r] t], h =>
    simp only [Option.getD_some, groupsDeclareNone, Bool.and_true] at h
    exact diagnostics_translateField w hw r t (diagnostics_translateType w hw t h)
  | some [.mk (_ :: _ :: _) _], _ => rfl
  | some (_ :: _ :: _), _ => simp [translateReceiver, abort, diagnostics]

theorem typeSpecs_append (w : Stream) (l : List Spec) (pre : List Spec) (first : Bool)
    (h : (typeSpecs w pre first).1.err = none) :
    (typeSpecs w (pre ++ l) first).1 =
        (typeSpecs w pre first).1.andThen (typeSpecs w l (typeSpecs w pre first).2).1 ∧
      (typeSpecs w (pre ++ l) first).2 = (typeSpecs w l (typeSpecs w pre first).2).2 := by
  induction pre generalizing first with
  | nil => simp [typeSpecs, skip_andThen]
  | cons spec rest ih =>
    simp only [typeSpecs, andThen_err_none] at h
    obtain ⟨h1, h2⟩ := ih false h.2.2
    show (typeSpecs w (spec :: (rest ++ l)) first).1 = _ ∧
      (typeSpecs w (spec :: (rest ++ l)) first).2 = _
    simp only [typeSpecs]
    exact ⟨by rw [h1]; simp only [andThen_assoc], h2⟩

theorem typeSpecs_of_err (w : Stream) (l : List Spec) (pre : List Spec) (first : Bool)
    (e : Err) (h : (typeSpecs w pre first).1.err = some e) :
    (typeSpecs w (pre ++ l) first).1 = (typeSpecs w pre first).1 := by
  induction pre generalizing first with
  | nil => simp [typeSpecs, skip] at h
  | cons spec rest ih =>
    show (typeSpecs w (spec :: (rest ++ l)) first).1 = _
    simp only [typeSpecs, andThen_err_some, beforeItem_err, false_or, true_and,
      reduceCtorEq] at h ⊢
    rcases h with h | ⟨h0, h⟩
    · rw [andThen_of_err _ (typeSpecs w (rest ++ l) false).1 e h,
        andThen_of_err _ (typeSpecs w rest false).1 e h]
    · rw [ih _ h]

theorem translateFuncType_inserted (w : Stream) (typeParams params : List Field)
    (results : Option (List Field)) :
    Inserted ⟨Stream.stderr, "Ignoring type parameters for function\n"⟩
      (translateFuncType w (FuncType.mk (some typeParams) params results))
      (translateFuncType w (FuncType.mk none params results)) := by
  rw [translateFuncType.eq_def, translateFuncType.eq_def]
  simp only [Option.isSome_some, Option.isSome_none, if_true, Bool.false_eq_true, if_false,
    skip_andThen]
  exact Inserted.base _ _

theorem funcDecl_inserted (w : Stream) (recv : Option (List Field)) (name : String)
    (typeParams params : List Field) (results : Option (List Field)) (first : Bool)
    (hr : (translateReceiver w name recv).err = none) :
    Inserted ⟨Stream.stderr, "Ignoring type parameters for function\n"⟩
      (translateDeclaration w
        (Decl.funcDecl recv name (FuncType.mk (some typeParams) params results)) first).1
      (translateDeclaration w
        (Decl.funcDecl recv name (FuncType.mk none params results)) first).1 := by
  simp only [translateDeclaration]
  apply Inserted.after _ (beforeItem_err _ _)
  apply Inserted.after _ (fprint_err _ _)
  apply Inserted.after _ hr
  apply Inserted.after _ (fprint_err _ _)
  apply Inserted.before
  exact translateFuncType_inserted w typeParams params results

theorem funcDecl_eq_of_receiver_err (w : Stream) (recv : Option (List Field)) (name : String)
    (type1 type2 : FuncType) (first : Bool) (e : Err)
    (hr : (translateReceiver w name recv).err = some e) :
    translateDeclaration w (Decl.funcDecl recv name type1) first =
      translateDeclaration w (Decl.funcDecl recv name type2) first := by
  simp only [translateDeclaration]
  rw [andThen_of_err (translateReceiver w name recv) _ e hr,
    andThen_of_err (translateReceiver w name recv) _ e hr]

theorem diagnostics_plainFuncDecl (w : Stream) (hw : w ≠ Stream.stderr)
    (recv : Option (List Field)) (name : String) (params : List Field)
    (results : Option (List Field)) (first : Bool)
    (h1 : groupsDeclareNone (recv.getD []) = true) (h2 : groupsDeclareNone params = true)
    (h3 : groupsDeclareNone (results.getD []) = true) :
    diagnostics (translateDeclaration w
      (Decl.funcDecl recv name (FuncType.mk none params results)) first).1.trace = [] := by
  rw [groupsDeclareNone_iff] at h2 h3
  simp only [translateDeclaration]
  exact diagnostics_andThen_nil _ _ (diagnostics_beforeItem w hw first)
    (diagnostics_andThen_nil _ _ (diagnostics_fprint w hw _)
      (diagnostics_andThen_nil _ _ (diagnostics_translateReceiver w hw name recv h1)
        (diagnostics_andThen_nil _ _ (diagnostics_fprint w hw _)
          (diagnostics_andThen_nil _ _
            (diagnostics_plainSignature w hw params results
              (fun f hf => diagnostics_translateType w hw _ (h2 f hf))
              (fun f hf => diagnostics_translateType w hw _ (h3 f hf)))
            (diagnostics_fprint w hw _)))))

theorem typeSpecs_flag (w : Stream) (l : List Spec) (first : Bool) :
    (typeSpecs w l first).2 = (first && l.isEmpty) := by
  induction l generalizing first with
  | nil => simp [typeSpecs]
  | cons spec rest ih => simp [typeSpecs, ih]

theorem typeSpec_inserted (w : Stream) (name : String) (typeParams : List Field) (t : Expr)
    (rest : List Spec) (first : Bool) :
    Inserted ⟨Stream.stderr, "Ignoring type parameters for type " ++ name ++ "\n"⟩
      (typeSpecs w (Spec.typeSpec name (some typeParams) t :: rest) first).1
      (typeSpecs w (Spec.typeSpec name none t :: rest) first).1 := by
  simp only [typeSpecs, Option.isSome_some, Option.isSome_none, if_true, Bool.false_eq_true,
    if_false, skip_andThen]
  apply Inserted.after _ (beforeItem_err _ _)
  apply Inserted.before
  apply Inserted.after _ (fprint_err _ _)
  exact Inserted.base _ _

theorem diagnostics_plainTypeSpec (w : Stream) (hw : w ≠ Stream.stderr) (name : String)
    (t : Expr) (first : Bool) (h : declaresNone t = true) :
    diagnostics (typeSpecs w [Spec.typeSpec name none t] first).1.trace = [] := by
  simp only [typeSpecs, Option.isSome_none, Bool.false_eq_true, if_false, skip_andThen]
  exact diagnostics_andThen_nil _ _ (diagnostics_beforeItem w hw first)
    (diagnostics_andThen_nil _ _
      (diagnostics_andThen_nil _ _ (diagnostics_fprint w hw _)
        (diagnostics_andThen_nil _ _ (diagnostics_translateType w hw t h)
          (diagnostics_fprint w hw _))) rfl)

/-- C16 fails at `func (T) M[U any]() {}`: the declaration declares type parameters
and no function type nested in it declares any, but the receiver check aborts the
translation before the signature is translated, and no diagnostic line is written, not
one. -/
theorem method_with_type_params_writes_no_line :
    groupsDeclareNone [Field.mk [] (Expr.ident "T")] = true ∧
      groupsDeclareNone [] = true ∧
      (translateDeclaration Stream.stdout methodWithTypeParams true).1.err =
        some (Err.unexpectedNumberOfReceivers "M") ∧
      diagnostics (translateDeclaration Stream.stdout methodWithTypeParams true).1.trace = [] ∧
      diagnostics (translateDeclaration Stream.stdout methodWithTypeParams true).1.trace ≠
        ["Ignoring type parameters for function\n"] ∧
      (diagnostics
        (translateDeclaration Stream.stdout methodWithTypeParams true).1.trace).length ≠ 1 := by
  have ht : (translateDeclaration Stream.stdout methodWithTypeParams true).1 =
      ⟨[⟨Stream.stdout, "\x7b\"Case\":\"Func\",\"Fields\":[\"M\","⟩],
        some (Err.unexpectedNumberOfReceivers "M")⟩ := by
    simp [methodWithTypeParams, translateDeclaration, translateReceiver, beforeItem,
      Outcome.andThen, fprint, skip, abort]
  rw [ht]
  simp [groupsDeclareNone, declaresNone, diagnostics]

/-- C16 as amended: a function declaration and a type spec that declare type parameters
have the primary output, the success or abort and the separator flag of the same
declaration without the type-parameter list, whatever the list contains, which is never
translated.  When the translation reaches the signature (the receiver is absent or is
translated), respectively the spec (the specs before it are translated), its trace is
the trace without the list with the one line `Ignoring type parameters ...` written to
the standard error in between; and when moreover no function type nested in the
declaration declares type parameters, that line is the only diagnostic of the
declaration. -/
theorem type_parameters_ignored (w : Stream) (hw : w ≠ Stream.stderr)
    (typeParams : List Field) :
    (∀ (recv : Option (List Field)) (name : String) (params : List Field)
        (results : Option (List Field)) (first : Bool),
      primary w (translateDeclaration w (Decl.funcDecl recv name
          (FuncType.mk (some typeParams) params results)) first).1.trace =
        primary w (translateDeclaration w (Decl.funcDecl recv name
          (FuncType.mk none params results)) first).1.trace ∧
      (translateDeclaration w (Decl.funcDecl recv name
          (FuncType.mk (some typeParams) params results)) first).1.err =
        (translateDeclaration w (Decl.funcDecl recv name
          (FuncType.mk none params results)) first).1.err ∧
      (translateDeclaration w (Decl.funcDecl recv name
          (FuncType.mk (some typeParams) params results)) first).2 =
        (translateDeclaration w (Decl.funcDecl recv name
          (FuncType.mk none params results)) first).2 ∧
      ((translateReceiver w name recv).err = none →
        Inserted ⟨Stream.stderr, "Ignoring type parameters for function\n"⟩
            (translateDeclaration w (Decl.funcDecl recv name
              (FuncType.mk (some typeParams) params results)) first).1
            (translateDeclaration w (Decl.funcDecl recv name
              (FuncType.mk none params results)) first).1 ∧
          (groupsDeclareNone (recv.getD []) = true → groupsDeclareNone params = true →
            groupsDeclareNone (results.getD []) = true →
            diagnostics (translateDeclaration w (Decl.funcDecl recv name
              (FuncType.mk (some typeParams) params results)) first).1.trace =
              ["Ignoring type parameters for function\n"]))) ∧
    (∀ (pre post : List Spec) (name : String) (t : Expr) (first : Bool),
      primary w (translateDeclaration w (Decl.genDecl Token.TYPE
          (pre ++ Spec.typeSpec name (some typeParams) t :: post)) first).1.trace =
        primary w (translateDeclaration w (Decl.genDecl Token.TYPE
          (pre ++ Spec.typeSpec name none t :: post)) first).1.trace ∧
      (translateDeclaration w (Decl.genDecl Token.TYPE
          (pre ++ Spec.typeSpec name (some typeParams) t :: post)) first).1.err =
        (translateDeclaration w (Decl.genDecl Token.TYPE
          (pre ++ Spec.typeSpec name none t :: post)) first).1.err ∧
      (translateDeclaration w (Decl.genDecl Token.TYPE
          (pre ++ Spec.typeSpec name (some typeParams) t :: post)) first).2 =
        (translateDeclaration w (Decl.genDecl Token.TYPE
          (pre ++ Spec.typeSpec name none t :: post)) first).2 ∧
      ((typeSpecs w pre first).1.err = none →
        Inserted ⟨Stream.stderr, "Ignoring type parameters for type " ++ name ++ "\n"⟩
          (translateDeclaration w (Decl.genDecl Token.TYPE
            (pre ++ Spec.typeSpec name (some typeParams) t :: post)) first).1
          (translateDeclaration w (Decl.genDecl Token.TYPE
            (pre ++ Spec.typeSpec name none t :: post)) first).1) ∧
      (declaresNone t = true →
        diagnostics (translateDeclaration w (Decl.genDecl Token.TYPE
          [Spec.typeSpec name (some typeParams) t]) first).1.trace =
          ["Ignoring type parameters for type " ++ name ++ "\n"])) := by
  constructor
  · intro recv name params results first
    cases hr : (translateReceiver w name recv).err with
    | none =>
      have hi := funcDecl_inserted w recv name typeParams params results first hr
      refine ⟨hi.primary_eq w hw rfl, hi.err_eq, rfl, fun _ => ⟨hi, fun h1 h2 h3 => ?_⟩⟩
      exact (hi.diagnostics_eq rfl).2
        (diagnostics_plainFuncDecl w hw recv name params results first h1 h2 h3)
    | some e =>
      rw [funcDecl_eq_of_receiver_err w recv name
        (FuncType.mk (some typeParams) params results) (FuncType.mk none params results)
        first e hr]
      exact ⟨rfl, rfl, rfl, fun h => by simp at h⟩
  · intro pre post name t first
    have hflag : ∀ tp : Option (List Field),
        (typeSpecs w (pre ++ Spec.typeSpec name tp t :: post) first).2 = false := by
      intro tp
      rw [typeSpecs_flag]
      cases pre <;> simp
    have hone : declaresNone t = true →
        diagnostics (translateDeclaration w (Decl.genDecl Token.TYPE
          [Spec.typeSpec name (some typeParams) t]) first).1.trace =
          ["Ignoring type parameters for type " ++ name ++ "\n"] := by
      intro ht
      exact ((typeSpec_inserted w name typeParams t [] first).diagnostics_eq rfl).2
        (diagnostics_plainTypeSpec w hw name t first ht)
    simp only [translateDeclaration] at hone ⊢
    cases hp : (typeSpecs w pre first).1.err with
    | none =>
      have hi : Inserted ⟨Stream.stderr, "Ignoring type parameters for type " ++ name ++ "\n"⟩
          (typeSpecs w (pre ++ Spec.typeSpec name (some typeParams) t :: post) first).1
          (typeSpecs w (pre ++ Spec.typeSpec name none t :: post) first).1 := by
        rw [(typeSpecs_append w _ pre first hp).1, (typeSpecs_append w _ pre first hp).1]
        exact Inserted.after _ hp (typeSpec_inserted w name typeParams t post _)
      exact ⟨hi.primary_eq w hw rfl, hi.err_eq, by rw [hflag, hflag], fun _ => hi, hone⟩
    | some e =>
      rw [typeSpecs_of_err w _ pre first e hp, typeSpecs_of_err w _ pre first e hp]
      exact ⟨rfl, rfl, by rw [hflag, hflag], fun h => by simp at h, hone⟩

/-- C16 as amended, at `func Identity[T any](x T) T` and `type KeyId[K comparable, I ~int | ~uint]
struct { Key K; Id I }` of the sample input. -/
theorem type_parameters_ignored_witness :
    Stream.stdout ≠ Stream.stderr ∧
      (translateReceiver Stream.stdout "Identity" none).err = none ∧
      groupsDeclareNone ((none : Option (List Field)).getD []) = true ∧
      groupsDeclareNone identityParams = true ∧
      groupsDeclareNone (identityResults.getD []) = true ∧
      diagnostics (translateDeclaration Stream.stdout (Decl.funcDecl none "Identity"
        (FuncType.mk (some identityTypeParams) identityParams identityResults)) true).1.trace =
        ["Ignoring type parameters for function\n"] ∧
      primary Stream.stdout (translateDeclaration Stream.stdout (Decl.funcDecl none "Identity"
          (FuncType.mk (some identityTypeParams) identityParams identityResults)) true).1.trace =
        primary Stream.stdout (translateDeclaration Stream.stdout (Decl.funcDecl none "Identity"
          (FuncType.mk none identityParams identityResults)) true).1.trace ∧
      declaresNone keyIdStruct = true ∧
      diagnostics (translateDeclaration Stream.stdout (Decl.genDecl Token.TYPE
        [Spec.typeSpec "KeyId" (some keyIdTypeParams) keyIdStruct]) true).1.trace =
        ["Ignoring type parameters for type " ++ "KeyId" ++ "\n"] :=
  ⟨by decide, rfl, by decide, by decide, by decide,
    (((type_parameters_ignored Stream.stdout (by decide) identityTypeParams).1 none "Identity"
      identityParams identityResults true).2.2.2 rfl).2 (by decide) (by decide) (by decide),
    ((type_parameters_ignored Stream.stdout (by decide) identityTypeParams).1 none "Identity"
      identityParams identityResults true).1,
    by decide,
    ((type_parameters_ignored Stream.stdout (by decide) keyIdTypeParams).2 [] [] "KeyId"
      keyIdStruct true).2.2.2.2 (by decide)⟩

end GoBinDragon
